import Mathlib

/-
Verification development for the email-to-record-store automation pipeline.

Python strings are modelled as `List Char`.  Each definition mirrors one
function of the source tree (data_extraction.py, notion_utils.py,
email_notification.py, email_processor.py, config.py); state-carrying code is
modelled by explicit state passing, exceptions by `Except`/`Option`, and the
regular expressions of data_extraction.py by a small token matcher that is
faithful to the concrete patterns appearing in the source.

Note on encodings: data_extraction.py is mojibake-encoded at source level
(the byte sequence of "õ" was decoded as MacRoman and re-encoded, so the
runtime literals contain the two characters "√µ" instead of "õ", "√§"
instead of "ä", "√∂" instead of "ö", "√º" instead of "ü", and the en dash
became the three characters "‚Äì").  config.py and notion_utils.py are clean
UTF-8.  The embedding reproduces the literals of each file exactly as they
are at runtime.
-/

abbrev Str := List Char

/-- Python whitespace class (the ASCII part of \s, which is all the
normalised bodies can contain). -/
def isPySpace (c : Char) : Bool :=
  c = ' ' || c = '\t' || c = '\n' || c = '\r' || c = (Char.ofNat 11) || c = (Char.ofNat 12)

def isAsciiDigit (c : Char) : Bool := '0' ≤ c && c ≤ '9'

def digitVal (c : Char) : Nat := c.toNat - '0'.toNat

/-- Case folding used for IGNORECASE matching: ASCII lower-casing extended
with the Estonian letters and the micro-sign pairs that occur in the
patterns of the source. -/
def foldChar (c : Char) : Char :=
  if 'A' ≤ c && c ≤ 'Z' then Char.ofNat (c.toNat + 32)
  else if c = 'Õ' then 'õ'
  else if c = 'Ä' then 'ä'
  else if c = 'Ö' then 'ö'
  else if c = 'Ü' then 'ü'
  else if c = 'Š' then 'š'
  else if c = 'Ž' then 'ž'
  else if c = 'Μ' then 'µ'
  else if c = 'μ' then 'µ'
  else c

/-- Python str.upper restricted to ASCII plus the Estonian letters used by
normalize_company_name. -/
def upChar (c : Char) : Char :=
  if 'a' ≤ c && c ≤ 'z' then Char.ofNat (c.toNat - 32)
  else if c = 'õ' then 'Õ'
  else if c = 'ä' then 'Ä'
  else if c = 'ö' then 'Ö'
  else if c = 'ü' then 'Ü'
  else if c = 'š' then 'Š'
  else if c = 'ž' then 'Ž'
  else c

def pyUpper (s : Str) : Str := s.map upChar

def pyLowerChar (c : Char) : Char :=
  if 'A' ≤ c && c ≤ 'Z' then Char.ofNat (c.toNat + 32)
  else if c = 'Õ' then 'õ'
  else if c = 'Ä' then 'ä'
  else if c = 'Ö' then 'ö'
  else if c = 'Ü' then 'ü'
  else c

def pyLower (s : Str) : Str := s.map pyLowerChar

/-- Python str.strip (whitespace from both ends). -/
def pyStrip (s : Str) : Str :=
  ((s.dropWhile isPySpace).reverse.dropWhile isPySpace).reverse

/-- Python str.isdigit restricted to ASCII digits. -/
def pyIsDigit (s : Str) : Bool := !s.isEmpty && s.all isAsciiDigit

def digitsToNat (s : Str) : Nat := s.foldl (fun a c => a * 10 + digitVal c) 0

/-- Helper for pyInt: digits possibly separated by single underscores
(Python 3 int() accepts them between digits). -/
def pdAux : Nat → Str → Option Nat
  | a, [] => some a
  | a, '_' :: c :: t => if isAsciiDigit c then pdAux (a * 10 + digitVal c) t else none
  | a, c :: t => if isAsciiDigit c then pdAux (a * 10 + digitVal c) t else none

def parseUDigits : Str → Option Nat
  | [] => none
  | c :: t => if isAsciiDigit c then pdAux (digitVal c) t else none

/-- Python int(str): optional surrounding whitespace, optional sign, digits
with optional single separating underscores; otherwise a ValueError
(modelled as none). -/
def pyInt (s : Str) : Option Int :=
  match pyStrip s with
  | '+' :: r => (parseUDigits r).map Int.ofNat
  | '-' :: r => (parseUDigits r).map (fun n => -(n : Int))
  | r => (parseUDigits r).map Int.ofNat

/-- Does the first list start with the second one (case-sensitive)? -/
def frontMatches : Str → Str → Bool
  | [], _ => true
  | _ :: _, [] => false
  | a :: as, b :: bs => a = b && frontMatches as bs

/-- Case-insensitive variant of frontMatches. -/
def frontMatchesCI : Str → Str → Bool
  | [], _ => true
  | _ :: _, [] => false
  | a :: as, b :: bs => foldChar a = foldChar b && frontMatchesCI as bs

/-- Case-sensitive substring test (Python "x in s"). -/
def containsSub (needle : Str) : Str → Bool
  | [] => frontMatches needle []
  | c :: t => frontMatches needle (c :: t) || containsSub needle t

/-- Case-insensitive substring test. -/
def containsSubCI (needle : Str) : Str → Bool
  | [] => frontMatchesCI needle []
  | c :: t => frontMatchesCI needle (c :: t) || containsSubCI needle t

def dropFront (needle s : Str) : Option Str :=
  if frontMatches needle s then some (s.drop needle.length) else none

def dropFrontCI (needle s : Str) : Option Str :=
  if frontMatchesCI needle s then some (s.drop needle.length) else none

/-- Python str.replace(pat, rep): replace all non-overlapping occurrences,
scanning left to right.  The fuel argument bounds the number of scan steps;
every step consumes at least one character, so fuel = length of the text is
always sufficient. -/
def replaceSubAux (pat rep : Str) : Nat → Str → Str
  | 0, s => s
  | Nat.succ f, s =>
    match s with
    | [] => []
    | c :: t =>
      if pat ≠ [] ∧ frontMatches pat (c :: t) then
        rep ++ replaceSubAux pat rep f ((c :: t).drop pat.length)
      else
        c :: replaceSubAux pat rep f t

def replaceSub (pat rep s : Str) : Str := replaceSubAux pat rep s.length s

/-- Remove every comma (Python str.replace(",", "")). -/
def removeComma (s : Str) : Str := s.filter (fun c => c ≠ ',')

/-
Token-level model of the concrete regular expressions of
data_extraction.py.  Every pattern of the source is a sequence of literals,
single-character classes, \s+/\s*, a digit capture, or (two|digits); the
two patterns using ".*"/".*?" are handled by searching the left part and
then the right part in the remaining text (the parts cannot overlap for
these patterns, so this matches the re semantics).
-/

inductive RTok where
  | lit : Str → RTok
  | litCI : Str → RTok
  | cls : List Char → RTok
  | clsCI : List Char → RTok
  | optCh : Char → RTok
  | ws1 : RTok
  | ws0 : RTok
  | digits : RTok
  | numWord : RTok
deriving Repr

/-- Match a token sequence at the start of the text; returns the value of
the numeric capture group (if one matched) and the rest of the text. -/
def matchToks : List RTok → Str → Option (Option Nat × Str)
  | [], s => some (none, s)
  | RTok.lit p :: ts, s =>
    match dropFront p s with
    | some r => matchToks ts r
    | none => none
  | RTok.litCI p :: ts, s =>
    match dropFrontCI p s with
    | some r => matchToks ts r
    | none => none
  | RTok.cls cs :: ts, s =>
    match s with
    | [] => none
    | c :: r => if c ∈ cs then matchToks ts r else none
  | RTok.clsCI cs :: ts, s =>
    match s with
    | [] => none
    | c :: r => if foldChar c ∈ cs then matchToks ts r else none
  | RTok.optCh p :: ts, s =>
    match s with
    | [] => matchToks ts []
    | c :: r => if c = p then matchToks ts r else matchToks ts (c :: r)
  | RTok.ws1 :: ts, s =>
    let w := s.takeWhile isPySpace
    if w = [] then none else matchToks ts (s.drop w.length)
  | RTok.ws0 :: ts, s => matchToks ts (s.dropWhile isPySpace)
  | RTok.digits :: ts, s =>
    let d := s.takeWhile isAsciiDigit
    if d = [] then none
    else
      match matchToks ts (s.drop d.length) with
      | some (c2, r) => some (match c2 with | some x => some x | none => some (digitsToNat d), r)
      | none => none
  | RTok.numWord :: ts, s =>
    match dropFrontCI ['t', 'w', 'o'] s with
    | some r =>
      match matchToks ts r with
      | some (c2, r2) => some (match c2 with | some x => some x | none => some 2, r2)
      | none => none
    | none =>
      let d := s.takeWhile isAsciiDigit
      if d = [] then none
      else
        match matchToks ts (s.drop d.length) with
        | some (c2, r) => some (match c2 with | some x => some x | none => some (digitsToNat d), r)
        | none => none

/-- Leftmost search of a token sequence, returning capture and rest. -/
def searchToksPos (toks : List RTok) : Str → Option (Option Nat × Str)
  | [] => matchToks toks []
  | c :: t =>
    match matchToks toks (c :: t) with
    | some r => some r
    | none => searchToksPos toks t

def searchToks (toks : List RTok) (s : Str) : Option (Option Nat) :=
  (searchToksPos toks s).map Prod.fst

def presence (toks : List RTok) (s : Str) : Bool := (searchToks toks s).isSome

def captureOf (toks : List RTok) (s : Str) : Option Nat :=
  match searchToks toks s with
  | some (some n) => some n
  | _ => none

/-- Search for "A.*B" (existence): find A, then search B in the rest. -/
def searchThen (a b : List RTok) (s : Str) : Bool :=
  match searchToksPos a s with
  | some (_, rest) => presence b rest
  | none => false

/-- Search for "A.*?B" with the capture inside B: find A, then the first B
match in the rest. -/
def searchThenCapture (a b : List RTok) (s : Str) : Option Nat :=
  match searchToksPos a s with
  | some (_, rest) => captureOf b rest
  | none => none

/-
Embedding of data_extraction.py.
-/

def sl (s : String) : Str := s.toList

/-- Normalisation done at the top of extract_service_counts: newlines to
spaces, strip, then the three (mojibake-encoded) dash variants replaced by
"-".  In the source each dash variant is the three-character sequence that
resulted from the encoding accident, so each replace call rewrites a
three-character substring. -/
def pyNormalizeBody (body : Str) : Str :=
  let b1 := pyStrip (body.map (fun c => if c = '\n' then ' ' else c))
  let b2 := replaceSub (sl "‚Äì") (sl "-") b1
  let b3 := replaceSub (sl "‚Äî") (sl "-") b2
  replaceSub (sl "‚àí") (sl "-") b3

/-- The seven keys of the service_counts dict, exactly as the (mojibake)
literals of data_extraction.py. -/
def keyOtst : Str := sl "Tehisintellekti otstarbekuse n√µustamine"
def keyErak : Str := sl "Finantseerimise n√µustamine ‚Äì Erakapitali kaasamine"
def keyAval : Str := sl "Finantseerimise n√µustamine ‚Äì Avalikud meetmed"
def keyKoostoo : Str := sl "Koost√∂√∂partnerite leidmine"
def keyHelpdesk : Str := sl "AI help desk"
def keyTiMaarus : Str := sl "TI m√§√§ruse n√µustamine ja usaldusv√§√§rne TI"
def keyLigipaas : Str := sl "Ligip√§√§s EL" ++ [Char.ofNat 39] ++ sl "i tehisintellekti taristule"

/-- The six keys of SERVICE_CONFIG in config.py, which is clean UTF-8 (the
dash is a real en dash and the Estonian letters are single characters). -/
def serviceConfigKeys : List Str :=
  [ sl "Tehisintellekti otstarbekuse nõustamine"
  , sl "Finantseerimise nõustamine – Avalikud meetmed"
  , sl "Finantseerimise nõustamine – Erakapitali kaasamine"
  , sl "Koostööpartnerite leidmine"
  , sl "TI määruse nõustamine ja usaldusväärne TI"
  , sl "Ligipääs EL" ++ [Char.ofNat 39] ++ sl "i tehisintellekti taristule" ]

/- Estonian patterns (the IGNORECASE searches use litCI/clsCI, the markers
without a flag use lit/cls). -/
def uldToks : List RTok := [RTok.litCI (sl "tehisintellekti"), RTok.ws1, RTok.litCI (sl "√ºldn√µustamine")]
def otstToks : List RTok :=
  [RTok.litCI (sl "tehisintellekti"), RTok.ws1, RTok.litCI (sl "otstarbekuse"), RTok.ws1, RTok.litCI (sl "n√µustamine")]
def aiMarkerToks : List RTok :=
  [RTok.lit (sl "AI n√µustamine:"), RTok.ws0, RTok.digits, RTok.ws0, RTok.lit (sl "kordne")]
def finPresToks : List RTok := [RTok.litCI (sl "finantseerimise n√µustamine")]
def finMarkerToks : List RTok :=
  [RTok.lit (sl "Finantseerimise n√µustamine:"), RTok.ws0, RTok.digits, RTok.ws0, RTok.lit (sl "kordne")]
def avalToks : List RTok := [RTok.litCI (sl "avalikud meetmed")]
def erakToks : List RTok := [RTok.litCI (sl "erakapitali kaasamine")]
def koostooToks : List RTok := [RTok.litCI (sl "koost√∂√∂partnerite leidmine")]
def tiPresA : List RTok :=
  [RTok.litCI (sl "ti"), RTok.ws1, RTok.litCI (sl "m"), RTok.clsCI (sl "√§a"), RTok.litCI (sl "ruse"),
   RTok.ws1, RTok.litCI (sl "n"), RTok.clsCI (sl "√µo"), RTok.litCI (sl "ustamine")]
def tiPresB : List RTok :=
  [RTok.litCI (sl "usaldusv"), RTok.clsCI (sl "√§a"), RTok.litCI (sl "√§rne"), RTok.ws1, RTok.litCI (sl "ti")]
def tiMarkerA : List RTok :=
  [RTok.lit (sl "TI"), RTok.ws1, RTok.lit (sl "m"), RTok.cls (sl "√§a"), RTok.lit (sl "ruse")]
def tiMarkerB : List RTok :=
  [RTok.lit (sl ":"), RTok.ws0, RTok.digits, RTok.ws0, RTok.lit (sl "kordne")]
def ligiToks : List RTok :=
  [RTok.litCI (sl "ligip√§√§s"), RTok.ws1, RTok.litCI (sl "el"), RTok.optCh (Char.ofNat 39),
   RTok.litCI (sl "i"), RTok.ws1, RTok.litCI (sl "tehisintellekti"), RTok.ws1, RTok.litCI (sl "taristule")]

/- English patterns. -/
def helpEnToks : List RTok := [RTok.litCI (sl "ai help desk")]
def suitPresToks : List RTok := [RTok.litCI (sl "ai suitability assessment")]
def suitMarkerToks : List RTok := [RTok.litCI (sl "ai suitability assessment:"), RTok.ws0, RTok.numWord]
def fundPresToks : List RTok := [RTok.litCI (sl "support to find funding")]
def fundMarkerToks : List RTok := [RTok.litCI (sl "support to find funding:"), RTok.ws0, RTok.numWord]
def publicToks : List RTok := [RTok.litCI (sl "public measures")]
def privateToks : List RTok := [RTok.litCI (sl "private capital")]
def matchmakingToks : List RTok := [RTok.litCI (sl "matchmaking")]
def intlToks : List RTok := [RTok.litCI (sl "international partnerships")]
def actPresA : List RTok := [RTok.litCI (sl "ai"), RTok.ws0, RTok.litCI (sl "act"), RTok.ws0, RTok.litCI (sl "awareness")]
def actPresB : List RTok := [RTok.litCI (sl "responsible"), RTok.ws0, RTok.litCI (sl "ai")]
def actMarkerB : List RTok := [RTok.lit (sl ":"), RTok.ws0, RTok.numWord]
def euToks : List RTok :=
  [RTok.litCI (sl "access"), RTok.ws1, RTok.litCI (sl "to"), RTok.ws1, RTok.litCI (sl "eu"),
   RTok.ws1, RTok.litCI (sl "ai"), RTok.ws1, RTok.litCI (sl "infrastructure")]

structure ServiceVals where
  otst : Nat
  erak : Nat
  aval : Nat
  koostoo : Nat
  help : Nat
  ti : Nat
  ligi : Nat
deriving Repr, DecidableEq

def zeroVals : ServiceVals := ⟨0, 0, 0, 0, 0, 0, 0⟩

/-- Estonian branch of extract_service_counts (before the final clamp). -/
def etRaw (b : Str) : ServiceVals :=
  let finC := min ((captureOf finMarkerToks b).getD 1) 2
  { help := if presence uldToks b then 1 else 0
  , otst := if presence otstToks b then min ((captureOf aiMarkerToks b).getD 1) 2 else 0
  , erak := if presence finPresToks b && presence erakToks b then finC else 0
  , aval := if presence finPresToks b && presence avalToks b then finC else 0
  , koostoo := if presence koostooToks b then 1 else 0
  , ti := if searchThen tiPresA tiPresB b then min ((searchThenCapture tiMarkerA tiMarkerB b).getD 1) 2 else 0
  , ligi := if presence ligiToks b then 1 else 0 }

/-- English branch of extract_service_counts (before the final clamp). -/
def enRaw (b : Str) : ServiceVals :=
  let fundC := min ((captureOf fundMarkerToks b).getD 1) 2
  { help := if presence helpEnToks b then 1 else 0
  , otst := if presence suitPresToks b then min ((captureOf suitMarkerToks b).getD 1) 2 else 0
  , erak := if presence fundPresToks b && presence privateToks b then fundC else 0
  , aval := if presence fundPresToks b && presence publicToks b then fundC else 0
  , koostoo := if presence matchmakingToks b || presence intlToks b then 1 else 0
  , ti := if searchThen actPresA actPresB b then min ((searchThenCapture actPresA actMarkerB b).getD 1) 2 else 0
  , ligi := if presence euToks b then 1 else 0 }

/-- The association list materialising the service_counts dict in its
insertion order. -/
def assocOfVals (v : ServiceVals) : List (Str × Nat) :=
  [ (keyOtst, v.otst), (keyErak, v.erak), (keyAval, v.aval), (keyKoostoo, v.koostoo)
  , (keyHelpdesk, v.help), (keyTiMaarus, v.ti), (keyLigipaas, v.ligi) ]

/-- The final clamp loop: min(v, 2) when the (mojibake) substring
"n√µustamine" occurs in the key, min(v, 1) otherwise. -/
def capOfKey (k : Str) : Nat := if containsSub (sl "n√µustamine") k then 2 else 1

def clampAssoc (l : List (Str × Nat)) : List (Str × Nat) :=
  l.map (fun kv => (kv.1, min kv.2 (capOfKey kv.1)))

/-- extract_service_counts(body, language) of data_extraction.py. -/
def extract_service_counts (body lang : Str) : List (Str × Nat) :=
  let b := pyNormalizeBody body
  let raw := if lang = sl "et" then etRaw b else if lang = sl "en" then enRaw b else zeroVals
  clampAssoc (assocOfVals raw)

/-
Embedding of extract_value (data_extraction.py lines 80-92) and of the
email-address validation pattern.
-/

/-- Text after the first colon of the line (Python line.partition(":")[-1];
empty when the line has no colon). -/
def afterColon : Str → Str
  | [] => []
  | ':' :: t => t
  | _ :: t => afterColon t

def isEmailC1 (c : Char) : Bool :=
  c.isAlpha || isAsciiDigit c || c = '_' || c = '.' || c = '+' || c = '-'

def isEmailC2 (c : Char) : Bool := c.isAlpha || isAsciiDigit c || c = '-'

def isEmailC3 (c : Char) : Bool := c.isAlpha || isAsciiDigit c || c = '-' || c = '.'

/-- One attempt of the email regex at the start of the text. -/
def matchEmailAt (s : Str) : Option Str :=
  let r1 := s.takeWhile isEmailC1
  if r1 = [] then none
  else
    match s.drop r1.length with
    | '@' :: rest =>
      let r2 := rest.takeWhile isEmailC2
      if r2 = [] then none
      else
        match rest.drop r2.length with
        | '.' :: rest2 =>
          let r3 := rest2.takeWhile isEmailC3
          if r3 = [] then none else some (r1 ++ '@' :: r2 ++ '.' :: r3)
        | _ => none
    | _ => none

/-- Leftmost match of the email pattern (re.search semantics). -/
def emailSearch : Str → Option Str
  | [] => none
  | c :: t =>
    match matchEmailAt (c :: t) with
    | some m => some m
    | none => emailSearch t

/-- The only validation pattern the callers of extract_value supply. -/
inductive ValuePattern where
  | emailPat
deriving Repr, DecidableEq

def runPattern : ValuePattern → Str → Option Str
  | ValuePattern.emailPat, s => emailSearch s

/-- extract_value(line, lines, index, pattern) of data_extraction.py. -/
def extract_value (line : Str) (lines : List Str) (index : Nat)
    (pattern : Option ValuePattern := none) : Str :=
  let value := pyStrip (afterColon line)
  if value = [] ∧ index + 1 < lines.length then
    let next := pyStrip (lines.getD (index + 1) [])
    match pattern with
    | some p => (runPattern p next).getD []
    | none => next
  else
    match pattern with
    | some p => (runPattern p value).getD []
    | none => value

/-
Embedding of normalize_company_name (notion_utils.py lines 64-89).
notion_utils.py is clean UTF-8, so the legal forms appear with real Estonian
letters.
-/

/-- Alternation order of the anchored regex (AS|OÜ|SAS|MTÜ). -/
def pfxForms : List Str := [sl "AS", sl "OÜ", sl "SAS", sl "MTÜ"]

def isPfxTrail (c : Char) : Bool := isPySpace c || c = '.' || c = '-'

/-- re.match of the prefix regex (AS|OÜ|SAS|MTÜ)[\s\.-]* with IGNORECASE:
returns group 0 (with the original casing of the name) and the rest. -/
def matchPfx (name : Str) : Option (Str × Str) :=
  pfxForms.findSome? (fun f =>
    if frontMatchesCI f name then
      let rest0 := name.drop f.length
      let trail := rest0.takeWhile isPfxTrail
      some (name.take f.length ++ trail, rest0.drop trail.length)
    else none)

/-- The long-form word patterns and their replacements, in source order. -/
def wordPatterns : List (Str × Str) :=
  [ (sl "aktsiaselts", sl "AS"), (sl "osaühing", sl "OÜ")
  , (sl "sihtasutus", sl "SAS"), (sl "mittetulundusühing", sl "MTÜ") ]

/-- Word character for the \b boundaries: ASCII alphanumerics, underscore
and the Estonian letters (the relevant part of the Unicode \w class). -/
def isWordChar (c : Char) : Bool :=
  c.isAlphanum || c = '_' || c ∈ sl "õäöüšžÕÄÖÜŠŽ"

def boundaryBefore : Option Char → Bool
  | none => true
  | some c => !isWordChar c

def boundaryAfter : Str → Bool
  | [] => true
  | c :: _ => !isWordChar c

/-- Does \b<word>\b match (IGNORECASE) somewhere in the text? -/
def wordFoundAux (w : Str) (prev : Option Char) : Str → Bool
  | [] => false
  | c :: t =>
    (boundaryBefore prev && frontMatchesCI w (c :: t) && boundaryAfter ((c :: t).drop w.length))
    || wordFoundAux w (some c) t

def wordFound (w name : Str) : Bool := wordFoundAux w none name

/-- re.sub of \b<word>\b (IGNORECASE) by the empty string: removes every
non-overlapping occurrence, scanning left to right; \b is evaluated against
the original characters, so the scan carries the previously read character.
The fuel argument bounds the number of scan steps; every step consumes at
least one character, so fuel = length of the text is always sufficient. -/
def wordSubAux (w : Str) : Nat → Option Char → Str → Str
  | 0, _, s => s
  | Nat.succ f, prev, s =>
    match s with
    | [] => []
    | c :: t =>
      if w ≠ [] ∧ (boundaryBefore prev && frontMatchesCI w (c :: t)
          && boundaryAfter ((c :: t).drop w.length)) = true then
        wordSubAux w f (((c :: t).take w.length).reverse.headD c) ((c :: t).drop w.length)
      else
        c :: wordSubAux w f (some c) t

def wordSubAll (w name : Str) : Str :=
  if w = [] then name else wordSubAux w name.length none name

/-- The body of normalize_company_name (notion_utils.py) before the final
comma removal and strip: strip, prefix handling, long-form word handling,
suffix append. -/
def normalizeCore (name : Str) : Str :=
  let n0 := pyStrip name
  let p := matchPfx n0
  let n1 := match p with
    | some (_, rest) => pyStrip rest
    | none => n0
  let suf1 := match p with
    | some (g0, _) => pyUpper (pyStrip g0)
    | none => []
  let step := wordPatterns.foldl
    (fun acc pat =>
      if wordFound pat.1 acc.1 then (pyStrip (wordSubAll pat.1 acc.1), pat.2) else acc)
    (n1, suf1)
  if step.2 ≠ [] then step.1 ++ ' ' :: step.2 else step.1

def normalize_company_name (name : Str) : Str :=
  if name = [] then [] else pyStrip (removeComma (normalizeCore name))

/-
Embedding of send_error_email (email_notification.py lines 8-111).
The persisted JSON store is an association list from "regcode:email" keys to
integer timestamps; times are integers (seconds).
-/

/-- Fixed sender-side configuration of send_error_email: the CC address
(CC_EMAIL, empty when unset) and whether the SMTP session succeeds. -/
structure NotifyEnv where
  ccEmail : Str
  smtpOk : Bool

/-- Result of one send_error_email call: the deduplicated final recipient
list, the list of addresses the mail was actually delivered to, and the
store as persisted on disk afterwards. -/
structure NotifyResult where
  finalRecipients : List Str
  sentTo : List Str
  store : List (Str × Int)

/-- The pruning of entries older than TTL_SECONDS = 180. -/
def pruneStore (now : Int) (store : List (Str × Int)) : List (Str × Int) :=
  store.filter (fun kv => now - kv.2 < 180)

/-- The deduplication loop over recipients_all: keeps the first occurrence
of each truthy address. -/
def dedupRecipients (seen : List Str) : List Str → List Str
  | [] => []
  | r :: rest =>
    if r ≠ [] ∧ r ∉ seen then r :: dedupRecipients (r :: seen) rest
    else dedupRecipients seen rest

/-- send_error_email(reg_code, error_message, email_data, recipients).
clientEmail is email_data["email_address"] (empty when absent); store is the
content of /tmp/aire_notified.json; now is int(time.time()). -/
def send_error_email (env : NotifyEnv) (now : Int) (regCode clientEmail : Str)
    (recipients : List Str) (store : List (Str × Int)) : NotifyResult :=
  let pruned := pruneStore now store
  let key := regCode ++ ':' :: clientEmail
  let clientCanReceive := clientEmail ≠ [] ∧ pruned.lookup key = none
  let newStore := if clientEmail ≠ [] ∧ pruned.lookup key = none
    then pruned ++ [(key, now)] else pruned
  let recipientsAll :=
    (if clientCanReceive then [clientEmail] else [])
      ++ recipients
      ++ (if env.ccEmail ≠ [] then [env.ccEmail] else [])
  let finalR := dedupRecipients [] recipientsAll
  if finalR = [] then
    { finalRecipients := [], sentTo := [], store := store }
  else if env.smtpOk then
    { finalRecipients := finalR, sentTo := finalR, store := newStore }
  else
    { finalRecipients := finalR, sentTo := [], store := store }

/-
Generic embedding of find_matching_entry_by_registry_code
(notion_utils.py lines 176-198) over a property-typed container.
-/

inductive NPropType where
  | number
  | rollup
  | plain
deriving Repr, DecidableEq

/-- A record viewed through one queried property: its number value, its
rollup number array and its rich-text value. -/
structure GenRec where
  num : Option Int
  nums : List Int
  text : Str
deriving Repr, DecidableEq

structure GenDB where
  props : List (Str × NPropType)
  records : List GenRec
deriving Repr, DecidableEq

/-- find_matching_entry_by_registry_code(registration_code, database_id,
property_name): a missing property raises a ValueError and int() raises on
an unparsable code, both caught by the enclosing except which returns None;
otherwise the first record matching the type-adapted filter is returned. -/
def find_matching_entry_by_registry_code (code : Str) (db : GenDB) (propName : Str) :
    Option GenRec :=
  match db.props.lookup propName with
  | none => none
  | some NPropType.number =>
    match pyInt code with
    | none => none
    | some v => db.records.find? (fun r => r.num = some v)
  | some NPropType.rollup =>
    match pyInt code with
    | none => none
    | some v => db.records.find? (fun r => v ∈ r.nums)
  | some NPropType.plain => db.records.find? (fun r => r.text = code)

/-
Record and state model for the reconciliation flow
(email_processor.py and the creation functions of notion_utils.py).
-/

structure EmailData where
  company_name : Str
  email_address : Str
  phone_number : Str
  registration_code : Str
  industry : Str
  participant_name : Str
  company_origin : Str
  helpdesk_topics : Str
deriving Repr, DecidableEq

/-- An entry of the Related (organizations) container. -/
structure RelatedRec where
  id : Nat
  companyName : Str
  registrikood : Option Int
  origin : Option Str
  sektor : Option Str
  location : Option Str
  mainActivity : Option Str
  emtak : Option Str
  employees : Option Int
deriving Repr, DecidableEq

/-- An entry of the People container. -/
structure Contact where
  id : Nat
  name : Str
  email : Str
  phone : Str
  organisation : List Nat
deriving Repr, DecidableEq

/-- An entry of the Main container. -/
structure MainRec where
  id : Nat
  title : Str
  regCode : Option Str
  companyRel : List Nat
  contactRel : List Nat
  jrk : Option Nat
  vta : Option Str
  serviceDesc : Option Str
  date : Option Str
deriving Repr, DecidableEq

/-- An entry of a per-service project container. -/
structure ProjectRec where
  id : Nat
  title : Str
  companyRel : List Nat
  contactRel : List Nat
  mainRel : List Nat
  jrk : Nat
  location : Str
  originSelect : Str
  vta : Str
  date : Option Str
  serviceDesc : Option Str
deriving Repr, DecidableEq

/-- Outcomes of the external collaborators (registry HTTP check, VTA
check, scraping); the code treats them as opaque calls. -/
structure Oracle where
  registryFound : Str → Bool
  vta : Str → Str
  location : Str → Option Str
  scrapeAny : Str → Bool
  scrapeLocation : Str → Option Str
  scrapeActivity : Str → Option Str
  scrapeEmtak : Str → Option Str
  scrapeEmployees : Str → Option Int

/-- The mutable world of one processing run: the four containers, a fresh-id
counter, and how many error/success notifications were sent. -/
structure ProcState where
  relatedDB : List RelatedRec
  mainDB : List MainRec
  peopleDB : List Contact
  projectDB : List ProjectRec
  nextId : Nat
  errors : Nat
  successes : Nat

/-- is_estonian_company of notion_utils.py. -/
def is_estonian_company (d : EmailData) : Bool :=
  let origin := d.company_origin ++ ' ' :: d.industry
  let o2 := pyLower (pyStrip origin)
  containsSub (sl "eesti") o2 || containsSub (sl "estonian") o2

/-- Decision taken by validate_estonian_company: valid, invalid/missing
registry code (one error email before the raise), or registry-not-found
(the inner send plus the resend of the enclosing except, then the raise). -/
inductive ValOutcome where
  | valid
  | badCode
  | notFound
deriving Repr, DecidableEq

def validationResult (o : Oracle) (d : EmailData) : ValOutcome :=
  if !is_estonian_company d then ValOutcome.valid
  else
    let code := pyStrip d.registration_code
    if code = [] ∨ ¬ pyIsDigit code then ValOutcome.badCode
    else if o.registryFound code then ValOutcome.valid
    else ValOutcome.notFound

/-- validate_estonian_company(email_data): returns normally for foreign
companies and for domestic companies found in the registry; otherwise sends
its error mails and raises ValueError. -/
def validate_estonian_company (o : Oracle) (d : EmailData) (s : ProcState) :
    Except Unit Unit × ProcState :=
  match validationResult o d with
  | ValOutcome.valid => (Except.ok (), s)
  | ValOutcome.badCode => (Except.error (), { s with errors := s.errors + 1 })
  | ValOutcome.notFound => (Except.error (), { s with errors := s.errors + 2 })

/-- find_matching_entry_by_registry_code instantiated at the Related
container, whose "Registrikood" property is number-typed (the records are
created with a number payload): int() failure yields None, otherwise the
first record with that number. -/
def findRelatedByCode (code : Str) (db : List RelatedRec) : Option RelatedRec :=
  match pyInt code with
  | none => none
  | some v => db.find? (fun r => r.registrikood = some v)

/-- find_matching_entry_by_registry_code instantiated at the Main
container, whose "Registration number" property is rich-text-typed (created
with a rich_text payload): the filter compares the stored text with
str(registration_code). -/
def findMainByCode (code : Str) (db : List MainRec) : Option MainRec :=
  db.find? (fun r => r.regCode = some code)

/-- find_matching_contact_by_name of notion_utils.py. -/
def find_matching_contact_by_name (name : Str) (people : List Contact) : Option Contact :=
  if name = [] then none else people.find? (fun c => c.name = name)

/-- link_contact_to_company: appends the company to the Organisation
relation unless it is already present; never removes an entry. -/
def link_contact_to_company (cid orgId : Nat) (people : List Contact) : List Contact :=
  people.map (fun c =>
    if c.id = cid then
      if orgId ∈ c.organisation then c
      else { c with organisation := c.organisation ++ [orgId] }
    else c)

/-- create_new_contact_in_people_database(name, email, phone, org_id,
db_id): creates the contact (linked to org_id when given) and then calls
link_contact_to_company again, which is a no-op. -/
def create_new_contact_in_people_database (name email phone : Str) (orgId : Option Nat)
    (s : ProcState) : Option Nat × ProcState :=
  let c : Contact :=
    { id := s.nextId, name := name, email := email, phone := phone
    , organisation := match orgId with | some o => [o] | none => [] }
  let people1 := s.peopleDB ++ [c]
  let people2 := match orgId with
    | some o => link_contact_to_company c.id o people1
    | none => people1
  (some c.id, { s with peopleDB := people2, nextId := s.nextId + 1 })

/-- get_max_jrk_number: the Jrk value of the first record when sorting
descending by Jrk, i.e. the maximum over the stored values (missing values
count as 0, the empty container gives 0). -/
def get_max_jrk_number (jrks : List (Option Nat)) : Nat :=
  jrks.foldl (fun a j => max a (j.getD 0)) 0

/-- Parse of the per-record pattern prefix + \s+(\d+)\s*$ used by
get_next_project_index_for_company. -/
def parseProjIdx (pre title : Str) : Option Nat :=
  match dropFront pre title with
  | none => none
  | some rest =>
    let w := rest.takeWhile isPySpace
    if w = [] then none
    else
      let r2 := rest.drop w.length
      let d := r2.takeWhile isAsciiDigit
      if d = [] then none
      else if (r2.drop d.length).all isPySpace then some (digitsToNat d) else none

/-- get_next_project_index_for_company: 1 + the maximal index parsed from
the titles of this company's records (a None company filter makes the
query raise, caught: the fallback is 1). -/
def get_next_project_index_for_company (mainDB : List MainRec) (relatedId : Option Nat)
    (svc cname : Str) : Nat :=
  match relatedId with
  | none => 1
  | some rid =>
    let pre := pyStrip (cname ++ ' ' :: svc)
    let rel := mainDB.filter (fun r => rid ∈ r.companyRel)
    (rel.foldl (fun m r => max m ((parseProjIdx pre r.title).getD 0)) 0) + 1

def natDigits (n : Nat) : Str := (toString n).toList

/-- Python str.lower().startswith(("kinnitused", "confirmations",
"olen teadlik", "i am aware")). -/
def boilerplateStart (t : Str) : Bool :=
  let lt := pyLower t
  frontMatches (sl "kinnitused") lt || frontMatches (sl "confirmations") lt
    || frontMatches (sl "olen teadlik") lt || frontMatches (sl "i am aware") lt

/-- unicodedata.normalize("NFC", ...): the identity on the NFC-normal
strings this development works with. -/
def normalize_text (s : Str) : Str := s

/-- The property names of the Main container (all candidate spellings used
by add_company_to_main_database resolve against this schema). -/
def mainDbProps : List Str :=
  [ sl "Project", sl "Teenusele reg kpv", sl "Company Name", sl "VTA kontroll"
  , sl "Contact", sl "Jrk", sl "Service need desctiprion", sl "Registration number" ]

/-- The property names of a per-service project container. -/
def projectDbProps : List Str :=
  [ sl "Project", sl "Company Name", sl "Registration date", sl "Location"
  , sl "Company origin", sl "VTA kontroll", sl "Jrk", sl "Contact"
  , sl "TI üldnõustamine", sl "Service need desctiprion" ]

/-- get_actual_property_name: case- and whitespace-insensitive match of the
candidates against the container schema. -/
def get_actual_property_name (props candidates : List Str) : Option Str :=
  candidates.findSome? (fun c =>
    props.find? (fun k => pyLower (pyStrip k) = pyLower (pyStrip c)))

/-- Contact resolution of add_company_to_main_database (lines 565-579): an
existing contact is linked to the company, a missing one is created (this
call site uses correct positional arguments). -/
def mainContactStep (d : EmailData) (relatedEntryId : Option Nat) (s : ProcState) :
    Option Nat × ProcState :=
  if d.participant_name ≠ [] then
    match find_matching_contact_by_name d.participant_name s.peopleDB with
    | some c =>
      let people2 := match relatedEntryId with
        | some rid => link_contact_to_company c.id rid s.peopleDB
        | none => s.peopleDB
      (some c.id, { s with peopleDB := people2 })
    | none =>
      create_new_contact_in_people_database d.participant_name d.email_address
        d.phone_number relatedEntryId s
  else (none, s)

/-- add_company_to_main_database (notion_utils.py lines 545-667).  Contact
resolution happens before the main-record existence check; an existing
record with this registry code short-circuits the creation and returns its
id; any raised error is caught by the enclosing except, which sends one
more error email and returns None. -/
def add_company_to_main_database (o : Oracle) (d : EmailData) (date : Str)
    (relatedEntryId : Option Nat) (includeJrk : Bool) (s : ProcState) :
    Option Nat × ProcState :=
  match validate_estonian_company o d s with
  | (Except.error _, s1) => (none, { s1 with errors := s1.errors + 1 })
  | (Except.ok _, _) =>
    let cname := normalize_company_name d.company_name
    let nextJrk := get_max_jrk_number (s.mainDB.map (fun r => r.jrk)) + 1
    let cs := mainContactStep d relatedEntryId s
    let contactId := cs.1
    let s2 := cs.2
    match findMainByCode d.registration_code s2.mainDB with
    | some r => (some r.id, s2)
    | none =>
      let relatedId := (findRelatedByCode d.registration_code s2.relatedDB).map (fun r => r.id)
      let idx := get_next_project_index_for_company s2.mainDB relatedId
        (sl "Tehisintellekti esmanõustamine") cname
      let title := cname ++ ' ' :: sl "Tehisintellekti esmanõustamine " ++ natDigits idx
      let ht := pyStrip d.helpdesk_topics
      let newRec : MainRec :=
        { id := s2.nextId
        , title := title
        , regCode := if d.registration_code ≠ [] then some d.registration_code else none
        , companyRel := match relatedEntryId with | some rid => [rid] | none => []
        , contactRel := match contactId with | some cid => [cid] | none => []
        , jrk := if includeJrk then some nextJrk else none
        , vta := some (if is_estonian_company d then o.vta d.registration_code
            else sl "N/A (foreign)")
        , serviceDesc := if ht ≠ [] ∧ ¬ boilerplateStart ht then some (ht.take 2000) else none
        , date := if date ≠ [] then some date else none }
      (some s2.nextId,
        { s2 with
            mainDB := s2.mainDB ++ [newRec],
            nextId := s2.nextId + 1,
            successes := s2.successes + 1 })

/-- create_new_entry_in_related_database (notion_utils.py lines 674-765).
When email_data is None the whole validation and enrichment sections are
skipped (the call path of process_email_data).  When email_data is present,
a validation failure produces the validator's own mails plus the resend of
the inner except-ValueError plus the resend of the outer except, and an
empty scrape for a domestic company produces two mails; both paths return
None without creating anything. -/
def create_new_entry_in_related_database (o : Oracle) (companyName code : Str)
    (dOpt : Option EmailData) (s : ProcState) : Option Nat × ProcState :=
  let vres := match dOpt with
    | none => ValOutcome.valid
    | some d => validationResult o d
  match vres with
  | ValOutcome.badCode => (none, { s with errors := s.errors + 3 })
  | ValOutcome.notFound => (none, { s with errors := s.errors + 4 })
  | ValOutcome.valid =>
    let needScrape := match dOpt with
      | some d => is_estonian_company d
      | none => false
    if needScrape ∧ ¬ o.scrapeAny code then
      (none, { s with errors := s.errors + 2 })
    else
      let newRec : RelatedRec :=
        { id := s.nextId
        , companyName := companyName
        , registrikood := if pyIsDigit code then (pyInt code) else none
        , origin := dOpt.bind (fun d => if d.company_origin ≠ [] then some d.company_origin else none)
        , sektor := dOpt.bind (fun d => if d.industry ≠ [] then some d.industry else none)
        , location := if needScrape then o.scrapeLocation code else none
        , mainActivity := if needScrape then o.scrapeActivity code else none
        , emtak := if needScrape then o.scrapeEmtak code else none
        , employees := if needScrape then o.scrapeEmployees code else none }
      (some s.nextId,
        { s with relatedDB := s.relatedDB ++ [newRec], nextId := s.nextId + 1 })

/-- process_email_data (email_processor.py lines 64-118).  Two call-site
defects shape this flow: the contact-creation call passes keyword arguments
(email_address=, phone_number=, organisation_id=, people_database_id=) that
do not exist in the signature of create_new_contact_in_people_database, so
reaching it raises TypeError before any contact is created; and the
service-loop call to add_project_to_additional_databases omits the required
main_entry_id argument, so its first execution raises TypeError before any
project is created.  Each raised TypeError is caught by the enclosing
except, which sends exactly one error email. -/
def process_email_data (o : Oracle) (d : EmailData) (counts : List (Str × Nat))
    (date : Str) (s : ProcState) : ProcState :=
  let r0 := findRelatedByCode d.registration_code s.relatedDB
  let rs :=
    match r0 with
    | some r => (some r.id, s)
    | none => create_new_entry_in_related_database o d.company_name d.registration_code none s
  let relatedIdOpt := rs.1
  let s1 := rs.2
  if d.participant_name ≠ []
      ∧ find_matching_contact_by_name d.participant_name s1.peopleDB = none then
    { s1 with errors := s1.errors + 1 }
  else
    let includeJrk := counts.any (fun kv => kv.2 > 0)
    let s2 := (add_company_to_main_database o d date relatedIdOpt includeJrk s1).2
    if counts.any (fun kv => kv.2 > 0 ∧ kv.1 ∈ serviceConfigKeys) then
      { s2 with errors := s2.errors + 1 }
    else s2

/-- count_company_entries_in_database: the number of records of the
container whose "Company Name" relation contains the given company (a None
company makes the query raise, caught: 0). -/
def count_company_entries_in_database (db : List ProjectRec) (relatedId : Option Nat) : Nat :=
  match relatedId with
  | none => 0
  | some rid => (db.filter (fun p => rid ∈ p.companyRel)).length

/-- get_company_local_jrk_start: 1 + the maximal Jrk of this company's
records in the container, falling back to 1 + the global maximum when the
company has no records yet. -/
def get_company_local_jrk_start (db : List ProjectRec) (rid : Nat) : Nat :=
  let rel := db.filter (fun p => rid ∈ p.companyRel)
  if rel = [] then get_max_jrk_number (db.map (fun p => some p.jrk)) + 1
  else (rel.foldl (fun a p => max a p.jrk) 0) + 1

/-- Project-name templates of SERVICE_CONFIG, e.g.
"(company_name) (literal service label) (project_count)". -/
inductive TItem where
  | lit : Str → TItem
  | companyField : TItem
  | serviceField : TItem
  | countField : TItem
deriving Repr, DecidableEq

def renderTemplate (tmpl : List TItem) (company svc : Str) (n : Nat) : Str :=
  tmpl.foldl
    (fun acc it => acc ++ (match it with
      | TItem.lit s => s
      | TItem.companyField => company
      | TItem.serviceField => svc
      | TItem.countField => natDigits n))
    []

/-- The data one creation iteration of add_project depends on. -/
structure ProjParams where
  rid : Option Nat
  contactId : Option Nat
  mainEntryId : Option Nat
  cclean : Str
  svcName : Str
  tmpl : List TItem
  date : Str
  locationText : Str
  vtaText : Str
  foreign : Bool
  svcDesc : Option Str
  start : Nat
  jrk0 : Nat

/-- The record created by iteration i of the add_project loop (the running
index in the title is start + i + 1, Jrk is jrk0 + i). -/
def mkProjectRec (pp : ProjParams) (i nid : Nat) : ProjectRec :=
  { id := nid
  , title := renderTemplate pp.tmpl pp.cclean pp.svcName (pp.start + i + 1)
  , companyRel := match pp.rid with | some r => [r] | none => []
  , contactRel := match pp.contactId with | some c => [c] | none => []
  , mainRel := match pp.mainEntryId with | some m => [m] | none => []
  , jrk := pp.jrk0 + i
  , location := pp.locationText
  , originSelect := if pp.foreign then sl "Foreign" else sl "Estonian"
  , vta := pp.vtaText
  , date := if pp.date ≠ [] then some pp.date else none
  , serviceDesc := pp.svcDesc }

/-- The for-loop of add_project: k remaining iterations, i the current
iteration index; each iteration creates one record and sends one success
notification. -/
def add_project_loop (pp : ProjParams) : Nat → Nat → ProcState → ProcState
  | 0, _, s => s
  | Nat.succ k, i, s =>
    add_project_loop pp k (i + 1)
      { s with
          projectDB := s.projectDB ++ [mkProjectRec pp i s.nextId],
          nextId := s.nextId + 1,
          successes := s.successes + 1 }

/-- The list of records the loop creates: iteration indices i, i+1, ... and
fresh ids nid, nid+1, ... -/
def loopRecs (pp : ProjParams) : Nat → Nat → Nat → List ProjectRec
  | 0, _, _ => []
  | Nat.succ k, i, nid => mkProjectRec pp i nid :: loopRecs pp k (i + 1) (nid + 1)

/-- The lower-cased service names that make add_project attach the
help-desk topic text. -/
def helpdeskServiceNames : List Str :=
  [sl "ai help desk", sl "ai helpdesk", sl "tehisintellekti esmanõustamine"]

/-- add_project (notion_utils.py lines 804-934).  A failed validation sends
the validator's mails plus one mail from the enclosing except and creates
nothing; an unknown relation property returns silently; otherwise the loop
creates count records whose titles carry the running indices
start+1 .. start+count, where start counts this company's existing records
in the container. -/
def add_project (o : Oracle) (d : EmailData) (count : Nat) (date : Str)
    (mainEntryId : Option Nat) (svcName : Str) (tmpl : List TItem) (pkey : Str)
    (s : ProcState) : ProcState :=
  match validationResult o d with
  | ValOutcome.badCode => { s with errors := s.errors + 2 }
  | ValOutcome.notFound => { s with errors := s.errors + 3 }
  | ValOutcome.valid =>
    if pkey ∉ projectDbProps.map normalize_text then s
    else
      let foreign := !is_estonian_company d
      let relatedE := findRelatedByCode d.registration_code s.relatedDB
      let rid := relatedE.map (fun r => r.id)
      let contactE := find_matching_contact_by_name d.participant_name s.peopleDB
      let cId := contactE.map (fun c => c.id)
      let nextJrk := match rid with
        | some r => get_company_local_jrk_start s.projectDB r
        | none => get_max_jrk_number (s.projectDB.map (fun p => some p.jrk)) + 1
      let locationText := if foreign then sl "N/A (foreign)"
        else (o.location d.registration_code).getD (sl "Not found")
      let vtaText := if foreign then sl "N/A (foreign)" else o.vta d.registration_code
      let cclean := normalize_company_name d.company_name
      let start := count_company_entries_in_database s.projectDB rid
      let svcDesc :=
        if pyStrip (pyLower svcName) ∈ helpdeskServiceNames ∧ d.helpdesk_topics ≠ [] then
          some (d.helpdesk_topics.take 2000)
        else none
      let pp : ProjParams :=
        { rid := rid, contactId := cId, mainEntryId := mainEntryId
        , cclean := cclean, svcName := svcName, tmpl := tmpl, date := date
        , locationText := locationText, vtaText := vtaText, foreign := foreign
        , svcDesc := svcDesc, start := start, jrk0 := nextJrk }
      add_project_loop pp count 0 s

/-- At most one record of the main container carries a given registry code
(the uniqueness invariant of claim C4). -/
def atMostOnePerCode (db : List MainRec) : Prop :=
  ∀ code : Str, (db.filter (fun r => r.regCode = some code)).length ≤ 1

/-
Concrete fixtures for witnesses and counterexamples.
-/

/-- An external world in which the registry lookup reports not-found and
scraping yields nothing. -/
def oracleDown : Oracle :=
  ⟨fun _ => false, fun _ => [], fun _ => none, fun _ => false,
   fun _ => none, fun _ => none, fun _ => none, fun _ => none⟩

/-- A company record of the Related container (company "B", code 999). -/
def fxCompanyB : RelatedRec := ⟨9, sl "B", some 999, none, none, none, none, none, none⟩

/-- Two pre-existing project records of company A (relation id 1). -/
def fxProjA1 : ProjectRec :=
  ⟨50, sl "A teenus 1", [1], [], [], 1, sl "L", sl "Estonian", sl "v", none, none⟩

def fxProjA2 : ProjectRec :=
  ⟨51, sl "A teenus 2", [1], [], [], 2, sl "L", sl "Estonian", sl "v", none, none⟩

/-- A store seeded with company B and two project records of company A. -/
def fxProjState : ProcState := ⟨[fxCompanyB], [], [], [fxProjA1, fxProjA2], 100, 0, 0⟩

/-- An empty store. -/
def fxEmptyState : ProcState := ⟨[], [], [], [], 0, 0, 0⟩

/-- A foreign company's email (validation is skipped for it), no contact. -/
def fxForeignEmail : EmailData :=
  ⟨sl "Testfirma OÜ", sl "info@testfirma.fi", sl "5551234", sl "999", [], [], sl "Soome", []⟩

/-- The same foreign company's email with a contact name. -/
def fxForeignEmailWithContact : EmailData :=
  ⟨sl "Testfirma OÜ", sl "info@testfirma.fi", sl "5551234", sl "999", [],
   sl "Mari Maasikas", sl "Soome", []⟩

/-- A domestic (Estonian) company's email with a missing registry code. -/
def fxDomesticNoCode : EmailData :=
  ⟨sl "Kodumaine OÜ", sl "info@kodumaine.ee", sl "5559876", [], [], [], sl "Eesti", []⟩

/-- A project-name template: company, literal label, running index. -/
def fxTmpl : List TItem :=
  [TItem.companyField, TItem.lit (sl " Avalikud meetmed "), TItem.countField]

/-- An existing main record with registry code "999". -/
def fxMainRec : MainRec :=
  ⟨77, sl "Testfirma OÜ Tehisintellekti esmanõustamine 1", some (sl "999"),
   [9], [], some 1, some (sl "N/A (foreign)"), none, some (sl "2025-01-01")⟩

/-- A store whose main container already holds fxMainRec. -/
def fxMainState : ProcState := ⟨[fxCompanyB], [fxMainRec], [], [], 200, 0, 0⟩

/-
Helper lemmas.
-/

theorem dropWhile_shape (p : Char → Bool) (l : Str) :
    List.dropWhile p l = [] ∨ ∃ c t, List.dropWhile p l = c :: t ∧ p c = false := by
  induction l with
  | nil => exact Or.inl rfl
  | cons c t ih =>
    by_cases h : p c
    · simpa [List.dropWhile_cons, h] using ih
    · exact Or.inr ⟨c, t, by simp [List.dropWhile_cons, h], by simpa using h⟩

theorem dropWhile_eq_self_of_head (p : Char → Bool) (l : Str)
    (h : ∀ c t, l = c :: t → p c = false) : List.dropWhile p l = l := by
  cases l with
  | nil => rfl
  | cons c t => simp [List.dropWhile_cons, h c t rfl]

theorem dropWhile_idem (p : Char → Bool) (l : Str) :
    List.dropWhile p (List.dropWhile p l) = List.dropWhile p l := by
  rcases dropWhile_shape p l with h | ⟨c, t, h, hc⟩
  · simp [h]
  · rw [h]; simp [List.dropWhile_cons, hc]

theorem head_false_of_dropWhile_self {p : Char → Bool} {A : Str} {c : Char} {t : Str}
    (hA : List.dropWhile p A = A) (hct : A = c :: t) : p c = false := by
  by_contra hne
  have hpc : p c = true := by simpa using hne
  rw [hct, List.dropWhile_cons, if_pos hpc] at hA
  have hlen := congrArg List.length hA
  have hle : (List.dropWhile p t).length ≤ t.length := (List.dropWhile_sublist p).length_le
  simp at hlen
  omega

theorem lstrip_rstrip_self {A : Str} (hA : List.dropWhile isPySpace A = A) :
    List.dropWhile isPySpace ((A.reverse.dropWhile isPySpace).reverse)
      = (A.reverse.dropWhile isPySpace).reverse := by
  apply dropWhile_eq_self_of_head
  intro c t hct
  have h0 : A.reverse.takeWhile isPySpace ++ A.reverse.dropWhile isPySpace = A.reverse :=
    List.takeWhile_append_dropWhile isPySpace A.reverse
  have hsplit : A = (A.reverse.dropWhile isPySpace).reverse ++ (A.reverse.takeWhile isPySpace).reverse := by
    have h1 := congrArg List.reverse h0
    rw [List.reverse_append, List.reverse_reverse] at h1
    exact h1.symm
  rw [hct] at hsplit
  exact head_false_of_dropWhile_self hA (by simpa using hsplit)

theorem pyStrip_idem (l : Str) : pyStrip (pyStrip l) = pyStrip l := by
  unfold pyStrip
  rw [lstrip_rstrip_self (dropWhile_idem isPySpace l), List.reverse_reverse, dropWhile_idem]

theorem mem_of_mem_pyStrip {c : Char} {l : Str} (h : c ∈ pyStrip l) : c ∈ l := by
  unfold pyStrip at h
  rw [List.mem_reverse] at h
  have h2 := (List.dropWhile_sublist (l := (List.dropWhile isPySpace l).reverse) (p := isPySpace)).mem h
  rw [List.mem_reverse] at h2
  exact (List.dropWhile_sublist (l := l) (p := isPySpace)).mem h2

theorem dedup_mem_strong (l : List Str) :
    ∀ seen x, x ∈ dedupRecipients seen l → x ∉ seen ∧ x ≠ [] ∧ x ∈ l := by
  induction l with
  | nil => intro seen x h; simp [dedupRecipients] at h
  | cons r rest ih =>
    intro seen x h
    unfold dedupRecipients at h
    by_cases hr : r ≠ [] ∧ r ∉ seen
    · rw [if_pos hr] at h
      rcases List.mem_cons.mp h with hx | h2
      · subst hx; exact ⟨hr.2, hr.1, by simp⟩
      · have h3 := ih (r :: seen) x h2
        exact ⟨fun hx => h3.1 (List.mem_cons_of_mem _ hx), h3.2.1, List.mem_cons_of_mem _ h3.2.2⟩
    · rw [if_neg hr] at h
      have h3 := ih seen x h
      exact ⟨h3.1, h3.2.1, List.mem_cons_of_mem _ h3.2.2⟩

theorem dedup_nodup (l : List Str) : ∀ seen, (dedupRecipients seen l).Nodup := by
  induction l with
  | nil => intro seen; simp [dedupRecipients]
  | cons r rest ih =>
    intro seen
    unfold dedupRecipients
    by_cases hr : r ≠ [] ∧ r ∉ seen
    · rw [if_pos hr]
      refine List.nodup_cons.mpr ⟨fun hmem => ?_, ih (r :: seen)⟩
      exact (dedup_mem_strong rest (r :: seen) r hmem).1 (List.mem_cons_self r seen)
    · rw [if_neg hr]; exact ih seen

theorem dedup_mem_of (l : List Str) :
    ∀ seen x, x ∈ l → x ≠ [] → x ∉ seen → x ∈ dedupRecipients seen l := by
  induction l with
  | nil => intro seen x h; cases h
  | cons r rest ih =>
    intro seen x hx hne hns
    unfold dedupRecipients
    by_cases hr : r ≠ [] ∧ r ∉ seen
    · rw [if_pos hr]
      rcases List.mem_cons.mp hx with hxr | h2
      · subst hxr; exact List.mem_cons_self _ _
      · by_cases hxr : x = r
        · subst hxr; exact List.mem_cons_self _ _
        · refine List.mem_cons_of_mem _ (ih (r :: seen) x h2 hne ?_)
          simp [hxr, hns]
    · rw [if_neg hr]
      rcases List.mem_cons.mp hx with hxr | h2
      · subst hxr; exact absurd ⟨hne, hns⟩ hr
      · exact ih seen x h2 hne hns

theorem add_project_loop_spec (pp : ProjParams) :
    ∀ k i s, (add_project_loop pp k i s).projectDB = s.projectDB ++ loopRecs pp k i s.nextId
      ∧ (add_project_loop pp k i s).successes = s.successes + k
      ∧ (add_project_loop pp k i s).errors = s.errors
      ∧ (add_project_loop pp k i s).relatedDB = s.relatedDB
      ∧ (add_project_loop pp k i s).mainDB = s.mainDB
      ∧ (add_project_loop pp k i s).peopleDB = s.peopleDB := by
  intro k
  induction k with
  | zero => intro i s; simp [add_project_loop, loopRecs]
  | succ k ih =>
    intro i s
    unfold add_project_loop
    obtain ⟨h1, h2, h3, h4, h5, h6⟩ := ih (i + 1)
      { s with
          projectDB := s.projectDB ++ [mkProjectRec pp i s.nextId],
          nextId := s.nextId + 1,
          successes := s.successes + 1 }
    refine ⟨?_, by rw [h2]; show s.successes + 1 + k = _; omega,
      by rw [h3], by rw [h4], by rw [h5], by rw [h6]⟩
    rw [h1]
    show s.projectDB ++ [mkProjectRec pp i s.nextId] ++ loopRecs pp k (i + 1) (s.nextId + 1) = _
    rw [List.append_assoc]
    rfl

theorem loopRecs_length (pp : ProjParams) :
    ∀ k i nid, (loopRecs pp k i nid).length = k := by
  intro k
  induction k with
  | zero => intro i nid; rfl
  | succ k ih => intro i nid; simp [loopRecs, ih]

theorem loopRecs_get (pp : ProjParams) :
    ∀ k i nid j, j < k →
      (loopRecs pp k i nid).get? j = some (mkProjectRec pp (i + j) (nid + j)) := by
  intro k
  induction k with
  | zero => intro i nid j hj; omega
  | succ k ih =>
    intro i nid j hj
    cases j with
    | zero => simp [loopRecs]
    | succ j =>
      have := ih (i + 1) (nid + 1) j (by omega)
      simp only [loopRecs, List.get?_cons_succ]
      rw [this]
      congr 2 <;> omega

theorem loopRecs_filter_same (pp : ProjParams) (r : Nat) (hr : pp.rid = some r) :
    ∀ k i nid, (loopRecs pp k i nid).filter (fun p => r ∈ p.companyRel) = loopRecs pp k i nid := by
  intro k
  induction k with
  | zero => intro i nid; rfl
  | succ k ih =>
    intro i nid
    simp only [loopRecs, List.filter_cons]
    have : r ∈ (mkProjectRec pp i nid).companyRel := by
      simp [mkProjectRec, hr]
    rw [if_pos (by simpa using this)]
    rw [ih]

theorem loopRecs_filter_other (pp : ProjParams) (r r2 : Nat) (hr : pp.rid = some r)
    (hne : r2 ≠ r) :
    ∀ k i nid, (loopRecs pp k i nid).filter (fun p => r2 ∈ p.companyRel) = [] := by
  intro k
  induction k with
  | zero => intro i nid; rfl
  | succ k ih =>
    intro i nid
    simp only [loopRecs, List.filter_cons]
    have : r2 ∉ (mkProjectRec pp i nid).companyRel := by
      simp [mkProjectRec, hr, hne]
    simp [this, ih]

theorem mainContactStep_frame (d : EmailData) (rel : Option Nat) (s : ProcState) :
    (mainContactStep d rel s).2.mainDB = s.mainDB
  ∧ (mainContactStep d rel s).2.relatedDB = s.relatedDB
  ∧ (mainContactStep d rel s).2.errors = s.errors
  ∧ (mainContactStep d rel s).2.successes = s.successes
  ∧ (mainContactStep d rel s).2.projectDB = s.projectDB := by
  unfold mainContactStep
  by_cases h : d.participant_name ≠ []
  · rw [if_pos h]
    cases hf : find_matching_contact_by_name d.participant_name s.peopleDB with
    | some c => simp
    | none => simp [create_new_contact_in_people_database]
  · rw [if_neg h]
    exact ⟨rfl, rfl, rfl, rfl, rfl⟩

/-- Every key produced by the service selector is a mojibake literal of
data_extraction.py; none of them equals a clean-UTF-8 key of
SERVICE_CONFIG, so the dispatch loop of process_email_data never fires. -/
theorem extract_keys_not_in_config (body lang : Str) (kv : Str × Nat)
    (h : kv ∈ extract_service_counts body lang) : kv.1 ∉ serviceConfigKeys := by
  unfold extract_service_counts at h
  simp only [clampAssoc, List.mem_map] at h
  obtain ⟨x, hx, rfl⟩ := h
  simp only [assocOfVals, List.mem_cons, List.not_mem_nil, or_false] at hx
  rcases hx with h | h | h | h | h | h | h
  · rw [h]; exact (by decide : keyOtst ∉ serviceConfigKeys)
  · rw [h]; exact (by decide : keyErak ∉ serviceConfigKeys)
  · rw [h]; exact (by decide : keyAval ∉ serviceConfigKeys)
  · rw [h]; exact (by decide : keyKoostoo ∉ serviceConfigKeys)
  · rw [h]; exact (by decide : keyHelpdesk ∉ serviceConfigKeys)
  · rw [h]; exact (by decide : keyTiMaarus ∉ serviceConfigKeys)
  · rw [h]; exact (by decide : keyLigipaas ∉ serviceConfigKeys)

/-- C5: for every body string and every language value, each (key, count)
entry produced by extract_service_counts is clamped to the per-service
maximum read off the key (2 when the key contains the advisory marker
substring, 1 otherwise) and never exceeds 2; the one-shot services (help
desk, matchmaking, EU AI infrastructure access) have cap 1 and the four
advisory services have cap 2. -/
theorem claim_C5_service_count_clamp :
    (∀ body lang : Str, ∀ kv : Str × Nat, kv ∈ extract_service_counts body lang →
        kv.2 ≤ capOfKey kv.1 ∧ kv.2 ≤ 2)
    ∧ capOfKey keyHelpdesk = 1 ∧ capOfKey keyKoostoo = 1 ∧ capOfKey keyLigipaas = 1
    ∧ capOfKey keyOtst = 2 ∧ capOfKey keyErak = 2 ∧ capOfKey keyAval = 2
    ∧ capOfKey keyTiMaarus = 2 := by
  refine ⟨?_, rfl, rfl, rfl, rfl, rfl, rfl, rfl⟩
  intro body lang kv hm
  unfold extract_service_counts at hm
  simp only [clampAssoc, List.mem_map] at hm
  obtain ⟨x, _, rfl⟩ := hm
  refine ⟨Nat.min_le_right _ _, ?_⟩
  have hcap : capOfKey x.1 ≤ 2 := by
    unfold capOfKey; split <;> omega
  exact le_trans (Nat.min_le_right _ _) hcap

/-- C5 witness: a concrete entry of a concrete extraction satisfies the
clamp bounds. -/
theorem claim_C5_service_count_clamp_witness :
    (keyOtst, 0) ∈ extract_service_counts (sl "x") (sl "xx")
    ∧ (0 ≤ capOfKey keyOtst ∧ 0 ≤ 2) := by
  refine ⟨by decide, ?_⟩
  exact claim_C5_service_count_clamp.1 (sl "x") (sl "xx") (keyOtst, 0) (by decide)

/-- C8: in the Estonian locale the funding-advisory presence phrase is
matched case-insensitively while the explicit count marker
"Finantseerimise n√µustamine: (digits) kordne" is compiled without
IGNORECASE; whenever the presence search succeeds but the case-sensitive
marker finds nothing (for instance because the label only occurs in a
different letter case), the selector falls back to count 1 for the matched
funding sub-services, ignoring any digits near the differently-cased
label. -/
theorem claim_C8_marker_case_sensitivity (body : Str)
    (hpres : presence finPresToks (pyNormalizeBody body) = true)
    (hmark : captureOf finMarkerToks (pyNormalizeBody body) = none) :
    (presence avalToks (pyNormalizeBody body) = true →
      (extract_service_counts body (sl "et")).lookup keyAval = some 1) ∧
    (presence erakToks (pyNormalizeBody body) = true →
      (extract_service_counts body (sl "et")).lookup keyErak = some 1) := by
  have hex : extract_service_counts body (sl "et")
      = clampAssoc (assocOfVals (etRaw (pyNormalizeBody body))) := by
    unfold extract_service_counts
    simp
  constructor
  · intro haval
    have hval : (etRaw (pyNormalizeBody body)).aval = 1 := by
      simp [etRaw, hpres, haval, hmark]
    rw [hex]
    simp only [clampAssoc, assocOfVals, List.map_cons, List.map_nil]
    rw [hval]
    simp only [List.lookup,
      show (keyOtst == keyAval) = false from by decide,
      show (keyErak == keyAval) = false from by decide,
      show (keyAval == keyAval) = true from by decide]
    rfl
  · intro herak
    have hval : (etRaw (pyNormalizeBody body)).erak = 1 := by
      simp [etRaw, hpres, herak, hmark]
    rw [hex]
    simp only [clampAssoc, assocOfVals, List.map_cons, List.map_nil]
    rw [hval]
    simp only [List.lookup,
      show (keyOtst == keyErak) = false from by decide,
      show (keyErak == keyErak) = true from by decide]
    rfl

/-- C8 witness: a concrete body that contains the funding-advisory label
only in lower case together with the digits "3 kordne" still yields count
1 for both funding sub-services. -/
theorem claim_C8_marker_case_sensitivity_witness :
    presence finPresToks (pyNormalizeBody (sl "finantseerimise n√µustamine: 3 kordne. Avalikud meetmed ja Erakapitali kaasamine.")) = true
    ∧ captureOf finMarkerToks (pyNormalizeBody (sl "finantseerimise n√µustamine: 3 kordne. Avalikud meetmed ja Erakapitali kaasamine.")) = none
    ∧ (extract_service_counts (sl "finantseerimise n√µustamine: 3 kordne. Avalikud meetmed ja Erakapitali kaasamine.") (sl "et")).lookup keyAval = some 1
    ∧ (extract_service_counts (sl "finantseerimise n√µustamine: 3 kordne. Avalikud meetmed ja Erakapitali kaasamine.") (sl "et")).lookup keyErak = some 1 := by
  refine ⟨by decide, by decide, ?_, ?_⟩
  · exact (claim_C8_marker_case_sensitivity _ (by decide) (by decide)).1 (by decide)
  · exact (claim_C8_marker_case_sensitivity _ (by decide) (by decide)).2 (by decide)

/-- C6 counterexample: on a body whose labeled line is
"E-mail: not-an-email" and whose next line holds a valid address, the
extracted value is the empty string, not the next line's address: the
fallback to the next line happens only when the text after the colon is
empty, while here it is "not-an-email", which merely fails the pattern. -/
theorem claim_C6_counterexample :
    extract_value (sl "E-mail: not-an-email")
      [sl "E-mail: not-an-email", sl "mari.maasikas@example.com"] 0
      (some ValuePattern.emailPat) = []
    ∧ sl "mari.maasikas@example.com" ≠ [] := by
  exact ⟨by decide, by decide⟩

/-- C6 amended: extract_value takes the text after the first colon; only
when that text is empty does it fall back to the entire next line; with a
validation pattern it returns the first pattern match of the candidate
text, else the empty string.  Concretely: an empty-after-colon line falls
back to the next line and extracts the address there; a labeled line that
itself holds a valid address yields the same-line match; a labeled line
with non-empty text that fails the pattern yields the empty string
(no next-line fallback). -/
theorem claim_C6_extract_value :
    extract_value (sl "E-mail:")
      [sl "E-mail:", sl "  kiri mari.maasikas@example.com siin"] 0
      (some ValuePattern.emailPat) = sl "mari.maasikas@example.com"
    ∧ extract_value (sl "E-mail: mari@firma.ee")
      [sl "E-mail: mari@firma.ee", sl "muu@rida.ee"] 0
      (some ValuePattern.emailPat) = sl "mari@firma.ee"
    ∧ extract_value (sl "E-mail: not-an-email")
      [sl "E-mail: not-an-email", sl "mari.maasikas@example.com"] 0
      (some ValuePattern.emailPat) = []
    ∧ extract_value (sl "Registrikood:") [sl "Registrikood:", sl " 77 "] 0 none = sl "77"
    ∧ extract_value (sl "Registrikood: 123456") [sl "Registrikood: 123456"] 0 none
      = sl "123456" := by
  refine ⟨by decide, by decide, by decide, by decide, by decide⟩

/-- C7 counterexample: canonicalization is not idempotent.  The anchored
prefix regex (AS|OÜ|SAS|MTÜ)[\s\.-]* has no word boundary, so on the first
output "ASTRA AS" it matches the leading "AS" of "ASTRA" again and the
second run yields "TRA AS AS". -/
theorem claim_C7_counterexample :
    normalize_company_name (sl "AS ASTRA") = sl "ASTRA AS"
    ∧ normalize_company_name (normalize_company_name (sl "AS ASTRA")) = sl "TRA AS AS"
    ∧ normalize_company_name (normalize_company_name (sl "AS ASTRA"))
        ≠ normalize_company_name (sl "AS ASTRA") := by
  refine ⟨by decide, by decide, by decide⟩

/-- C7 amended: canonicalization is idempotent for every input whose
canonical form neither starts with a legal-form abbreviation (the anchored
prefix regex finds nothing) nor contains a legal-form long word; the
counterexample inputs are exactly those whose output begins with
AS/OÜ/SAS/MTÜ again. -/
theorem claim_C7_conditional_idempotence (x : Str)
    (h1 : matchPfx (normalize_company_name x) = none)
    (h2 : ∀ pat ∈ wordPatterns, wordFound pat.1 (normalize_company_name x) = false) :
    normalize_company_name (normalize_company_name x) = normalize_company_name x := by
  by_cases hy : normalize_company_name x = []
  · rw [hy]; rfl
  · have hx : x ≠ [] := by
      intro hx0
      apply hy
      rw [hx0]
      rfl
    have hz : normalize_company_name x = pyStrip (removeComma (normalizeCore x)) := by
      unfold normalize_company_name
      rw [if_neg hx]
    have hstrip : pyStrip (normalize_company_name x) = normalize_company_name x := by
      rw [hz]; exact pyStrip_idem _
    have hnoc : ∀ c ∈ normalize_company_name x, c ≠ ',' := by
      intro c hc
      rw [hz] at hc
      have h3 := mem_of_mem_pyStrip hc
      unfold removeComma at h3
      have h4 := List.mem_filter.mp h3
      simpa using h4.2
    have hrc : removeComma (normalize_company_name x) = normalize_company_name x := by
      unfold removeComma
      apply List.filter_eq_self.mpr
      intro a ha
      simpa using hnoc a ha
    have hw1 : wordFound (sl "aktsiaselts") (normalize_company_name x) = false :=
      h2 (sl "aktsiaselts", sl "AS") (by simp [wordPatterns])
    have hw2 : wordFound (sl "osaühing") (normalize_company_name x) = false :=
      h2 (sl "osaühing", sl "OÜ") (by simp [wordPatterns])
    have hw3 : wordFound (sl "sihtasutus") (normalize_company_name x) = false :=
      h2 (sl "sihtasutus", sl "SAS") (by simp [wordPatterns])
    have hw4 : wordFound (sl "mittetulundusühing") (normalize_company_name x) = false :=
      h2 (sl "mittetulundusühing", sl "MTÜ") (by simp [wordPatterns])
    have hcore : normalizeCore (normalize_company_name x) = normalize_company_name x := by
      unfold normalizeCore
      simp only [hstrip, h1, wordPatterns, List.foldl_cons, List.foldl_nil]
      simp [hw1, hw2, hw3, hw4]
    conv_lhs => rw [normalize_company_name]
    rw [if_neg hy, hcore, hrc, hstrip]

/-- C7 witness: a concrete long-form name whose canonical form "Näidis AS"
satisfies the side conditions, hence re-canonicalizing is a fixed point. -/
theorem claim_C7_conditional_idempotence_witness :
    matchPfx (normalize_company_name (sl "Näidis Aktsiaselts")) = none
    ∧ normalize_company_name (normalize_company_name (sl "Näidis Aktsiaselts"))
        = normalize_company_name (sl "Näidis Aktsiaselts") := by
  refine ⟨by decide, ?_⟩
  exact claim_C7_conditional_idempotence (sl "Näidis Aktsiaselts") (by decide) (by decide)

/-- C9 amended: the registry-code lookup is total — it returns None or one
of the container's records and never propagates an exception — and a code
that int() cannot parse, queried against a number- or rollup-typed
property, yields None.  (The original claim said "not a decimal-digit
string", but int() also accepts codes with surrounding whitespace, a sign,
or digit-group underscores, and such codes are looked up normally.) -/
theorem claim_C9_lookup_total (code : Str) (db : GenDB) (propName : Str) :
    (find_matching_entry_by_registry_code code db propName = none
      ∨ ∃ r, find_matching_entry_by_registry_code code db propName = some r ∧ r ∈ db.records)
    ∧ (pyInt code = none →
        (db.props.lookup propName = some NPropType.number
          ∨ db.props.lookup propName = some NPropType.rollup) →
        find_matching_entry_by_registry_code code db propName = none) := by
  constructor
  · cases hres : find_matching_entry_by_registry_code code db propName with
    | none => exact Or.inl rfl
    | some r =>
      refine Or.inr ⟨r, rfl, ?_⟩
      unfold find_matching_entry_by_registry_code at hres
      split at hres
      · cases hres
      · split at hres
        · cases hres
        · exact List.mem_of_find?_eq_some hres
      · split at hres
        · cases hres
        · exact List.mem_of_find?_eq_some hres
      · exact List.mem_of_find?_eq_some hres
  · intro hint hty
    unfold find_matching_entry_by_registry_code
    rcases hty with h | h <;> rw [h, hint]

/-- C9 counterexample: " 123" is not a decimal-digit string, yet int()
parses it, so the lookup against a number-typed property returns the
matching record instead of the None the claim requires. -/
theorem claim_C9_counterexample :
    pyIsDigit (sl " 123") = false
    ∧ find_matching_entry_by_registry_code (sl " 123")
        ⟨[(sl "Registrikood", NPropType.number)], [⟨some 123, [], []⟩]⟩ (sl "Registrikood")
      = some ⟨some 123, [], []⟩ := by
  refine ⟨by decide, by decide⟩

/-- C9 witness: a concrete unparsable code against a number-typed property
yields None. -/
theorem claim_C9_lookup_total_witness :
    pyInt (sl "12ab") = none
    ∧ find_matching_entry_by_registry_code (sl "12ab")
        ⟨[(sl "Registrikood", NPropType.number)], [⟨some 12, [], []⟩]⟩ (sl "Registrikood")
      = none := by
  refine ⟨by decide, ?_⟩
  exact (claim_C9_lookup_total (sl "12ab")
    ⟨[(sl "Registrikood", NPropType.number)], [⟨some 12, [], []⟩]⟩ (sl "Registrikood")).2
    (by decide) (Or.inl (by decide))

/-- C10 counterexample: when the registrant's address is also one of the
configured internal recipients, it is delivered to on every notification,
so within a 180-second window the (registry code, address) pair receives
two mails, contradicting the at-most-once claim. -/
theorem claim_C10_counterexample :
    sl "klient@firma.ee"
      ∈ (send_error_email ⟨sl "cc@aire.ee", true⟩ 0 (sl "123") (sl "klient@firma.ee")
          [sl "klient@firma.ee"] []).sentTo
    ∧ sl "klient@firma.ee"
      ∈ (send_error_email ⟨sl "cc@aire.ee", true⟩ 100 (sl "123") (sl "klient@firma.ee")
          [sl "klient@firma.ee"]
          (send_error_email ⟨sl "cc@aire.ee", true⟩ 0 (sl "123") (sl "klient@firma.ee")
            [sl "klient@firma.ee"] []).store).sentTo
    ∧ (100 : Int) - 0 < 180 := by
  refine ⟨by decide, by decide, by decide⟩

/-- C10 amended: the final recipient list of every error notification is
duplicate-free; every non-empty configured internal recipient and the CC
address are always included; and the registrant's address is suppressed by
the persisted 180-second window provided it is not itself an internal
recipient and differs from the CC address (otherwise the internal inclusion
keeps delivering to it). -/
theorem claim_C10_error_email_recipients (env : NotifyEnv) (now : Int)
    (regCode clientEmail : Str) (recipients : List Str) (store : List (Str × Int)) :
    (send_error_email env now regCode clientEmail recipients store).finalRecipients.Nodup
    ∧ (∀ r ∈ recipients, r ≠ [] →
        r ∈ (send_error_email env now regCode clientEmail recipients store).finalRecipients)
    ∧ (env.ccEmail ≠ [] →
        env.ccEmail ∈ (send_error_email env now regCode clientEmail recipients store).finalRecipients)
    ∧ ((pruneStore now store).lookup (regCode ++ ':' :: clientEmail) ≠ none →
        clientEmail ∉ recipients → clientEmail ≠ env.ccEmail →
        clientEmail ∉ (send_error_email env now regCode clientEmail recipients store).finalRecipients) := by
  have hfinal : (send_error_email env now regCode clientEmail recipients store).finalRecipients = []
      ∨ (send_error_email env now regCode clientEmail recipients store).finalRecipients
        = dedupRecipients []
            ((if clientEmail ≠ [] ∧ (pruneStore now store).lookup (regCode ++ ':' :: clientEmail) = none
                then [clientEmail] else [])
              ++ recipients
              ++ (if env.ccEmail ≠ [] then [env.ccEmail] else [])) := by
    unfold send_error_email
    dsimp only
    by_cases hnil : dedupRecipients []
        ((if clientEmail ≠ [] ∧ (pruneStore now store).lookup (regCode ++ ':' :: clientEmail) = none
            then [clientEmail] else [])
          ++ recipients
          ++ (if env.ccEmail ≠ [] then [env.ccEmail] else [])) = []
    · rw [if_pos hnil]
      exact Or.inl rfl
    · rw [if_neg hnil]
      by_cases hok : env.smtpOk = true
      · rw [if_pos hok]; exact Or.inr rfl
      · rw [if_neg hok]; exact Or.inr rfl
  have hempty : ∀ x, x ∈ dedupRecipients []
      ((if clientEmail ≠ [] ∧ (pruneStore now store).lookup (regCode ++ ':' :: clientEmail) = none
          then [clientEmail] else [])
        ++ recipients
        ++ (if env.ccEmail ≠ [] then [env.ccEmail] else [])) →
      ¬ (send_error_email env now regCode clientEmail recipients store).finalRecipients = [] := by
    intro x hx hcon
    unfold send_error_email at hcon
    dsimp only at hcon
    by_cases hnil : dedupRecipients []
        ((if clientEmail ≠ [] ∧ (pruneStore now store).lookup (regCode ++ ':' :: clientEmail) = none
            then [clientEmail] else [])
          ++ recipients
          ++ (if env.ccEmail ≠ [] then [env.ccEmail] else [])) = []
    · exact absurd (hnil ▸ hx) (List.not_mem_nil x)
    · rw [if_neg hnil] at hcon
      by_cases hok : env.smtpOk = true
      · rw [if_pos hok] at hcon
        exact hnil hcon
      · rw [if_neg hok] at hcon
        exact hnil hcon
  refine ⟨?_, ?_, ?_, ?_⟩
  · rcases hfinal with h | h
    · rw [h]; exact List.nodup_nil
    · rw [h]; exact dedup_nodup _ []
  · intro r hr hrne
    have hmem : r ∈ dedupRecipients []
        ((if clientEmail ≠ [] ∧ (pruneStore now store).lookup (regCode ++ ':' :: clientEmail) = none
            then [clientEmail] else [])
          ++ recipients
          ++ (if env.ccEmail ≠ [] then [env.ccEmail] else [])) := by
      apply dedup_mem_of
      · exact List.mem_append_left _ (List.mem_append_right _ hr)
      · exact hrne
      · exact List.not_mem_nil r
    rcases hfinal with h | h
    · exact absurd h (hempty r hmem)
    · rw [h]; exact hmem
  · intro hcc
    have hmem : env.ccEmail ∈ dedupRecipients []
        ((if clientEmail ≠ [] ∧ (pruneStore now store).lookup (regCode ++ ':' :: clientEmail) = none
            then [clientEmail] else [])
          ++ recipients
          ++ (if env.ccEmail ≠ [] then [env.ccEmail] else [])) := by
      apply dedup_mem_of
      · refine List.mem_append_right _ ?_
        rw [if_pos hcc]
        exact List.mem_cons_self _ _
      · exact hcc
      · exact List.not_mem_nil _
    rcases hfinal with h | h
    · exact absurd h (hempty _ hmem)
    · rw [h]; exact hmem
  · intro hwin hnin hncc
    rcases hfinal with h | h
    · rw [h]; exact List.not_mem_nil _
    · rw [h]
      intro hmem
      have h3 := (dedup_mem_strong _ _ _ hmem).2.2
      rcases List.mem_append.mp h3 with h4 | h4
      · rcases List.mem_append.mp h4 with h5 | h5
        · rw [if_neg (by intro hand; exact hwin hand.2)] at h5
          exact List.not_mem_nil _ h5
        · exact hnin h5
      · by_cases hcc : env.ccEmail ≠ []
        · rw [if_pos hcc] at h4
          rcases List.mem_cons.mp h4 with h6 | h6
          · exact hncc h6
          · exact List.not_mem_nil _ h6
        · rw [if_neg hcc] at h4
          exact List.not_mem_nil _ h4

/-- C10 witness: with a fresh window entry for the pair, the registrant is
suppressed while internal and CC recipients are kept, without duplicates. -/
theorem claim_C10_error_email_recipients_witness :
    (pruneStore 100 [(sl "123:a@b.ee", 0)]).lookup (sl "123" ++ ':' :: sl "a@b.ee") ≠ none
    ∧ sl "a@b.ee"
      ∉ (send_error_email ⟨sl "cc@aire.ee", true⟩ 100 (sl "123") (sl "a@b.ee")
          [sl "sisene@aire.ee"] [(sl "123:a@b.ee", 0)]).finalRecipients
    ∧ sl "sisene@aire.ee"
      ∈ (send_error_email ⟨sl "cc@aire.ee", true⟩ 100 (sl "123") (sl "a@b.ee")
          [sl "sisene@aire.ee"] [(sl "123:a@b.ee", 0)]).finalRecipients := by
  refine ⟨by decide, ?_, ?_⟩
  · exact (claim_C10_error_email_recipients ⟨sl "cc@aire.ee", true⟩ 100 (sl "123") (sl "a@b.ee")
      [sl "sisene@aire.ee"] [(sl "123:a@b.ee", 0)]).2.2.2 (by decide) (by decide) (by decide)
  · exact (claim_C10_error_email_recipients ⟨sl "cc@aire.ee", true⟩ 100 (sl "123") (sl "a@b.ee")
      [sl "sisene@aire.ee"] [(sl "123:a@b.ee", 0)]).2.1 _ (by decide) (by decide)

theorem count_some (db : List ProjectRec) (rid : Nat) :
    count_company_entries_in_database db (some rid)
      = (db.filter (fun p => rid ∈ p.companyRel)).length := rfl

/-- C3: when validation passes and the company is resolved, add_project
creates exactly n records whose titles carry the running indices
k+1, ..., k+n, where k counts the records already related to this company
in this container; afterwards the company's count is k+n (gapless), and
every other company's count in the container is unchanged (the numbering is
scoped to (container, company)). -/
theorem claim_C3_project_numbering (o : Oracle) (d : EmailData) (n : Nat) (date : Str)
    (mainId : Option Nat) (svc : Str) (tmpl : List TItem) (s : ProcState) (r : RelatedRec)
    (hval : validationResult o d = ValOutcome.valid)
    (hrel : findRelatedByCode d.registration_code s.relatedDB = some r) :
    (add_project o d n date mainId svc tmpl (sl "TI üldnõustamine") s).projectDB.length
      = s.projectDB.length + n
    ∧ (∀ i, i < n →
        ((add_project o d n date mainId svc tmpl (sl "TI üldnõustamine") s).projectDB.get?
            (s.projectDB.length + i)).map ProjectRec.title
          = some (renderTemplate tmpl (normalize_company_name d.company_name) svc
              (count_company_entries_in_database s.projectDB (some r.id) + i + 1)))
    ∧ count_company_entries_in_database
        (add_project o d n date mainId svc tmpl (sl "TI üldnõustamine") s).projectDB (some r.id)
      = count_company_entries_in_database s.projectDB (some r.id) + n
    ∧ (∀ rid2, rid2 ≠ r.id →
        count_company_entries_in_database
          (add_project o d n date mainId svc tmpl (sl "TI üldnõustamine") s).projectDB (some rid2)
        = count_company_entries_in_database s.projectDB (some rid2)) := by
  obtain ⟨pp, hppr, hppt, hpps, hppc, hppst, hEq⟩ :
      ∃ pp : ProjParams, pp.rid = some r.id ∧ pp.tmpl = tmpl ∧ pp.svcName = svc
        ∧ pp.cclean = normalize_company_name d.company_name
        ∧ pp.start = count_company_entries_in_database s.projectDB (some r.id)
        ∧ add_project o d n date mainId svc tmpl (sl "TI üldnõustamine") s
          = add_project_loop pp n 0 s := by
    refine ⟨{
        rid := some r.id,
        contactId := (find_matching_contact_by_name d.participant_name s.peopleDB).map (fun c => c.id),
        mainEntryId := mainId,
        cclean := normalize_company_name d.company_name,
        svcName := svc, tmpl := tmpl, date := date,
        locationText := if !is_estonian_company d then sl "N/A (foreign)"
          else (o.location d.registration_code).getD (sl "Not found"),
        vtaText := if !is_estonian_company d then sl "N/A (foreign)"
          else o.vta d.registration_code,
        foreign := !is_estonian_company d,
        svcDesc := if pyStrip (pyLower svc) ∈ helpdeskServiceNames ∧ d.helpdesk_topics ≠ []
          then some (d.helpdesk_topics.take 2000) else none,
        start := count_company_entries_in_database s.projectDB (some r.id),
        jrk0 := get_company_local_jrk_start s.projectDB r.id }, rfl, rfl, rfl, rfl, rfl, ?_⟩
    unfold add_project
    rw [hval]
    rw [if_neg (by decide)]
    dsimp only
    rw [hrel]
    exact rfl
  obtain ⟨hdb, _, _, _, _, _⟩ := add_project_loop_spec pp n 0 s
  rw [hEq]
  refine ⟨?_, ?_, ?_, ?_⟩
  · rw [hdb, List.length_append, loopRecs_length]
  · intro i hi
    rw [hdb]
    rw [List.get?_append_right (by omega)]
    have hidx : s.projectDB.length + i - s.projectDB.length = i := by omega
    rw [hidx, loopRecs_get pp n 0 s.nextId i hi]
    simp only [Option.map_some, mkProjectRec]
    rw [hppt, hpps, hppc, hppst]
    simp
  · rw [count_some, count_some, hdb, List.filter_append, List.length_append,
      loopRecs_filter_same pp r.id hppr, loopRecs_length]
  · intro rid2 hne
    rw [count_some, count_some, hdb, List.filter_append, List.length_append,
      loopRecs_filter_other pp r.id rid2 hppr hne, List.length_nil]
    omega

/-- C3 witness: on a container pre-seeded with two records of company A
(id 1), company B (id 9) requesting 2 units receives titles numbered 1 and
2, B's count becomes 2, and A's count stays 2. -/
theorem claim_C3_project_numbering_witness :
    (add_project oracleDown fxForeignEmail 2 (sl "2025-01-01") (some 33) (sl "svc")
        fxTmpl (sl "TI üldnõustamine") fxProjState).projectDB.length = 4
    ∧ ((add_project oracleDown fxForeignEmail 2 (sl "2025-01-01") (some 33) (sl "svc")
        fxTmpl (sl "TI üldnõustamine") fxProjState).projectDB.get? 2).map ProjectRec.title
      = some (sl "Testfirma OÜ Avalikud meetmed 1")
    ∧ ((add_project oracleDown fxForeignEmail 2 (sl "2025-01-01") (some 33) (sl "svc")
        fxTmpl (sl "TI üldnõustamine") fxProjState).projectDB.get? 3).map ProjectRec.title
      = some (sl "Testfirma OÜ Avalikud meetmed 2")
    ∧ count_company_entries_in_database
        (add_project oracleDown fxForeignEmail 2 (sl "2025-01-01") (some 33) (sl "svc")
          fxTmpl (sl "TI üldnõustamine") fxProjState).projectDB (some 9) = 2
    ∧ count_company_entries_in_database
        (add_project oracleDown fxForeignEmail 2 (sl "2025-01-01") (some 33) (sl "svc")
          fxTmpl (sl "TI üldnõustamine") fxProjState).projectDB (some 1) = 2 := by
  obtain ⟨h1, h2, h3, h4⟩ := claim_C3_project_numbering oracleDown fxForeignEmail 2
    (sl "2025-01-01") (some 33) (sl "svc") fxTmpl fxProjState fxCompanyB
    (by decide) (by decide)
  refine ⟨h1.trans (by decide), ?_, ?_, h3.trans (by decide), (h4 1 (by decide)).trans (by decide)⟩
  · exact (h2 0 (by omega)).trans (by decide)
  · exact (h2 1 (by omega)).trans (by decide)

theorem atMostOne_append_new (db : List MainRec) (nr : MainRec)
    (hinv : atMostOnePerCode db)
    (hnew : ∀ code, nr.regCode = some code →
      db.find? (fun r => r.regCode = some code) = none) :
    atMostOnePerCode (db ++ [nr]) := by
  intro code
  rw [List.filter_append, List.length_append]
  by_cases hc : nr.regCode = some code
  · have h0 := hnew code hc
    have hz : (db.filter (fun r => r.regCode = some code)).length = 0 := by
      rw [List.length_eq_zero, List.filter_eq_nil]
      intro a ha
      have h1 := List.find?_eq_none.mp h0 a ha
      simpa using h1
    rw [hz]
    have : (List.filter (fun r => r.regCode = some code) [nr]).length ≤ 1 := by
      simp [List.filter_cons]
      split <;> simp
    omega
  · have hz : (List.filter (fun r => r.regCode = some code) [nr]).length = 0 := by
      simp [List.filter_cons, hc]
    rw [hz]
    have := hinv code
    omega

/-- C4: when validation passes and a main record with the email's registry
code already exists, add_company_to_main_database creates nothing and
returns the existing record's id (the existence check runs before the
create call); and for every run, the at-most-one-MainRecord-per-registry-
code invariant of the main container is preserved. -/
theorem claim_C4_main_record_idempotent (o : Oracle) (d : EmailData) (date : Str)
    (relOpt : Option Nat) (inc : Bool) (s : ProcState) :
    (validationResult o d = ValOutcome.valid →
      ∀ r, findMainByCode d.registration_code s.mainDB = some r →
        (add_company_to_main_database o d date relOpt inc s).1 = some r.id
        ∧ (add_company_to_main_database o d date relOpt inc s).2.mainDB = s.mainDB)
    ∧ (atMostOnePerCode s.mainDB →
        atMostOnePerCode (add_company_to_main_database o d date relOpt inc s).2.mainDB) := by
  constructor
  · intro hval r hfind
    have hv : validate_estonian_company o d s = (Except.ok (), s) := by
      unfold validate_estonian_company
      rw [hval]
    unfold add_company_to_main_database
    rw [hv]
    dsimp only
    rw [(mainContactStep_frame d relOpt s).1, hfind]
    exact ⟨rfl, (mainContactStep_frame d relOpt s).1⟩
  · intro hinv
    unfold add_company_to_main_database
    cases hvr : validationResult o d with
    | badCode =>
      have hv : validate_estonian_company o d s
          = (Except.error (), { s with errors := s.errors + 1 }) := by
        unfold validate_estonian_company
        rw [hvr]
      rw [hv]
      exact hinv
    | notFound =>
      have hv : validate_estonian_company o d s
          = (Except.error (), { s with errors := s.errors + 2 }) := by
        unfold validate_estonian_company
        rw [hvr]
      rw [hv]
      exact hinv
    | valid =>
      have hv : validate_estonian_company o d s = (Except.ok (), s) := by
        unfold validate_estonian_company
        rw [hvr]
      rw [hv]
      dsimp only
      rw [(mainContactStep_frame d relOpt s).1]
      cases hfind : findMainByCode d.registration_code s.mainDB with
      | some r =>
        dsimp only
        rw [(mainContactStep_frame d relOpt s).1]
        exact hinv
      | none =>
        apply atMostOne_append_new s.mainDB _ hinv
        intro code hc
        by_cases hrc : d.registration_code ≠ []
        · rw [if_pos hrc] at hc
          have : code = d.registration_code := by
            injection hc with h
            exact h.symm
          rw [this]
          exact hfind
        · rw [if_neg hrc] at hc
          cases hc

/-- C4 witness: with a main record for code "999" already present, the run
returns its id 77 and leaves the main container unchanged. -/
theorem claim_C4_main_record_idempotent_witness :
    validationResult oracleDown fxForeignEmail = ValOutcome.valid
    ∧ (add_company_to_main_database oracleDown fxForeignEmail (sl "2025-01-01")
        (some 9) false fxMainState).1 = some 77
    ∧ (add_company_to_main_database oracleDown fxForeignEmail (sl "2025-01-01")
        (some 9) false fxMainState).2.mainDB = fxMainState.mainDB := by
  obtain ⟨ha, hb⟩ := (claim_C4_main_record_idempotent oracleDown fxForeignEmail
    (sl "2025-01-01") (some 9) false fxMainState).1 (by decide) fxMainRec (by decide)
  exact ⟨by decide, ha.trans (by decide), hb⟩

theorem create_related_none_spec (o : Oracle) (cn code : Str) (s : ProcState) :
    create_new_entry_in_related_database o cn code none s
      = (some s.nextId,
        { s with
            relatedDB := s.relatedDB
              ++ [⟨s.nextId, cn, if pyIsDigit code then pyInt code else none,
                   none, none, none, none, none, none⟩],
            nextId := s.nextId + 1 }) := by
  unfold create_new_entry_in_related_database
  dsimp only
  simp

/-- C1 counterexample: processing a domestic email whose registry code is
missing sends two error notifications (one from the validator, one from the
main-record creator's handler), and the legacy create-before-validate path
has already created one CompanyRecord; the claimed "exactly one
notification and zero created records" is false. -/
theorem claim_C1_counterexample :
    (process_email_data oracleDown fxDomesticNoCode (extract_service_counts [] (sl "et"))
      (sl "2025-01-01") fxEmptyState).errors = 2
    ∧ (process_email_data oracleDown fxDomesticNoCode (extract_service_counts [] (sl "et"))
      (sl "2025-01-01") fxEmptyState).relatedDB.length = 1
    ∧ (process_email_data oracleDown fxDomesticNoCode (extract_service_counts [] (sl "et"))
      (sl "2025-01-01") fxEmptyState).mainDB.length = 0
    ∧ (process_email_data oracleDown fxDomesticNoCode (extract_service_counts [] (sl "et"))
      (sl "2025-01-01") fxEmptyState).projectDB.length = 0 := by
  refine ⟨by decide, by decide, by decide, by decide⟩

/-- C1 amended: for every inbound email of a domestic company whose
validation fails (missing or non-numeric registry code, or registry
not-found), processing creates no MainRecord and no ProjectRecord, sends no
success notification, and never creates or modifies a contact record; the
legacy create-before-validate call path creates exactly one CompanyRecord
when the company is not already present (and none otherwise); and the
number of error notifications sent is: exactly one when the extracted
contact name is non-empty and unknown (the contact-creation TypeError
aborts processing before validation runs), otherwise exactly two on the
missing/non-numeric-code path and exactly three on the registry-not-found
path. -/
theorem claim_C1_failed_validation (o : Oracle) (d : EmailData) (body lang date : Str)
    (s : ProcState)
    (hval : validationResult o d ≠ ValOutcome.valid) :
    (process_email_data o d (extract_service_counts body lang) date s).mainDB = s.mainDB
    ∧ (process_email_data o d (extract_service_counts body lang) date s).projectDB = s.projectDB
    ∧ (process_email_data o d (extract_service_counts body lang) date s).peopleDB = s.peopleDB
    ∧ (process_email_data o d (extract_service_counts body lang) date s).successes = s.successes
    ∧ (process_email_data o d (extract_service_counts body lang) date s).relatedDB.length
      = s.relatedDB.length
        + (if findRelatedByCode d.registration_code s.relatedDB = none then 1 else 0)
    ∧ (process_email_data o d (extract_service_counts body lang) date s).errors
      = s.errors
        + (if d.participant_name ≠ []
              ∧ find_matching_contact_by_name d.participant_name s.peopleDB = none
           then 1
           else if validationResult o d = ValOutcome.badCode then 2 else 3) := by
  have hany : (extract_service_counts body lang).any
      (fun kv => kv.2 > 0 ∧ kv.1 ∈ serviceConfigKeys) = false := by
    rw [List.any_eq_false]
    intro kv hkv
    simp only [decide_eq_true_eq, not_and]
    intro _
    exact extract_keys_not_in_config body lang kv hkv
  have hadd : ∀ (rel : Option Nat) (inc : Bool) (s' : ProcState),
      (add_company_to_main_database o d date rel inc s').2
        = { s' with errors := s'.errors
            + (if validationResult o d = ValOutcome.badCode then 2 else 3) } := by
    intro rel inc s'
    unfold add_company_to_main_database
    cases hvr : validationResult o d with
    | valid => exact absurd hvr hval
    | badCode =>
      have hv : validate_estonian_company o d s'
          = (Except.error (), { s' with errors := s'.errors + 1 }) := by
        unfold validate_estonian_company
        rw [hvr]
      rw [hv]
      dsimp only
      rw [if_pos rfl]
    | notFound =>
      have hv : validate_estonian_company o d s'
          = (Except.error (), { s' with errors := s'.errors + 2 }) := by
        unfold validate_estonian_company
        rw [hvr]
      rw [hv]
      dsimp only
      rw [if_neg (by simp)]
  unfold process_email_data
  cases hrel0 : findRelatedByCode d.registration_code s.relatedDB with
  | some r =>
    dsimp only
    by_cases hct : d.participant_name ≠ []
        ∧ find_matching_contact_by_name d.participant_name s.peopleDB = none
    · rw [if_pos hct]
      exact ⟨rfl, rfl, rfl, rfl, by simp, by rw [if_pos hct]⟩
    · rw [if_neg hct]
      rw [hany]
      simp only [Bool.false_eq_true, if_false]
      rw [hadd]
      exact ⟨rfl, rfl, rfl, rfl, by simp, by rw [if_neg hct]⟩
  | none =>
    dsimp only
    rw [create_related_none_spec o d.company_name d.registration_code s]
    dsimp only
    by_cases hct : d.participant_name ≠ []
        ∧ find_matching_contact_by_name d.participant_name s.peopleDB = none
    · rw [if_pos hct]
      exact ⟨rfl, rfl, rfl, rfl, by simp, by rw [if_pos hct]⟩
    · rw [if_neg hct]
      rw [hany]
      simp only [Bool.false_eq_true, if_false]
      rw [hadd]
      exact ⟨rfl, rfl, rfl, rfl, by simp, by rw [if_neg hct]⟩

/-- C1 witness: the amended statement instantiated twice on an empty
store — at the missing-registry-code email without a contact name (two
error notifications, one CompanyRecord, no MainRecord) and at the same
email with an unknown contact name (exactly one error notification from
the contact-call TypeError). -/
theorem claim_C1_failed_validation_witness :
    validationResult oracleDown fxDomesticNoCode ≠ ValOutcome.valid
    ∧ (process_email_data oracleDown fxDomesticNoCode (extract_service_counts [] (sl "et"))
        (sl "2025-01-01") fxEmptyState).relatedDB.length = 1
    ∧ (process_email_data oracleDown fxDomesticNoCode (extract_service_counts [] (sl "et"))
        (sl "2025-01-01") fxEmptyState).errors = 2
    ∧ (process_email_data oracleDown fxDomesticNoCode (extract_service_counts [] (sl "et"))
        (sl "2025-01-01") fxEmptyState).mainDB = fxEmptyState.mainDB
    ∧ (process_email_data oracleDown
        { fxDomesticNoCode with participant_name := sl "Mari Maasikas" }
        (extract_service_counts [] (sl "et")) (sl "2025-01-01") fxEmptyState).errors = 1 := by
  obtain ⟨h1, h2, h3, h4, h5, h6⟩ := claim_C1_failed_validation oracleDown fxDomesticNoCode
    [] (sl "et") (sl "2025-01-01") fxEmptyState (by decide)
  obtain ⟨_, _, _, _, _, h6c⟩ := claim_C1_failed_validation oracleDown
    { fxDomesticNoCode with participant_name := sl "Mari Maasikas" }
    [] (sl "et") (sl "2025-01-01") fxEmptyState (by decide)
  exact ⟨by decide, h5.trans (by decide), h6.trans (by decide), h1, h6c.trans (by decide)⟩

/-- C2: evaluation at the failing input.  For an email with a non-empty
contact name that has no existing contact record, process_email_data calls
create_new_contact_in_people_database with keyword arguments
(email_address=, phone_number=, organisation_id=, people_database_id=) that
do not exist in that function's signature; the call raises TypeError before
the function body runs, so no contact is created, the main-record step is
never reached, and the enclosing except sends one error notification. -/
theorem claim_C2_contact_creation_bug :
    (process_email_data oracleDown fxForeignEmailWithContact [] (sl "2025-01-01")
      fxEmptyState).peopleDB = []
    ∧ (process_email_data oracleDown fxForeignEmailWithContact [] (sl "2025-01-01")
      fxEmptyState).mainDB = []
    ∧ (process_email_data oracleDown fxForeignEmailWithContact [] (sl "2025-01-01")
      fxEmptyState).errors = 1
    ∧ (process_email_data oracleDown fxForeignEmailWithContact [] (sl "2025-01-01")
      fxEmptyState).relatedDB.length = 1 := by
  refine ⟨by decide, by decide, by decide, by decide⟩
